import Mathlib

/-!
Verification development for the bridge-api repository: a shallow embedding of
the bridge ledger synchronization engine (`src/workers/bridge_collector.py`),
the mirror-store upserts, the bridge read API (`src/api/v1/bridge.py`,
`src/services/bridge_service.py`) and the orchestrator status poller
(`src/services/orchestrator_service.py`, `src/utils/rpc_client.py`), together
with theorems about cursor correctness, paging termination, upsert conflict
semantics, failure semantics and state normalization.
-/

set_option autoImplicit false

namespace BridgeApi

/-- Remote wrap-request record, as returned by
`embedded.bridge.getAllWrapTokenRequests` and consumed by
`_upsert_wrap_requests` / `_sync_new_wrap_requests`.  The `token` sub-object's
`symbol` and `decimals` may be absent (the code reads them with
`token.get("symbol", "UNKNOWN")` / `token.get("decimals", 8)`), hence `Option`.
`amount` / `fee` are the integers obtained from `Decimal(r["amount"])` /
`Decimal(r["fee"])` (decimal strings of arbitrary-precision integers). -/
structure WrapRecord where
  id : String
  networkClass : Int
  chainId : Int
  toAddress : String
  tokenStandard : String
  tokenAddress : String
  tokenSymbol : Option String
  tokenDecimals : Option Int
  amount : Int
  fee : Int
  signature : String
  creationMomentumHeight : Int
  confirmationsToFinality : Int
deriving DecidableEq, Repr

/-- Remote unwrap-request record, as returned by
`embedded.bridge.getAllUnwrapTokenRequests`.  The remote encodes `redeemed` and
`revoked` as integers; `_upsert_unwrap_requests` converts them with
`r["redeemed"] == 1` / `r["revoked"] == 1`. -/
structure UnwrapRecord where
  transactionHash : String
  logIndex : Int
  registrationMomentumHeight : Int
  networkClass : Int
  chainId : Int
  toAddress : String
  tokenAddress : String
  tokenStandard : String
  tokenSymbol : Option String
  tokenDecimals : Option Int
  amount : Int
  signature : String
  redeemed : Int
  revoked : Int
  redeemableIn : Int
deriving DecidableEq, Repr

/-- Stored row of the `wrap_token_requests` table (`WrapTokenRequest` model,
`src/models/bridge.py`), unique on `request_id`. -/
structure WrapRow where
  requestId : String
  networkClass : Int
  chainId : Int
  toAddress : String
  tokenStandard : String
  tokenAddress : String
  tokenSymbol : String
  tokenDecimals : Int
  amount : Int
  fee : Int
  signature : String
  creationMomentumHeight : Int
  confirmationsToFinality : Int
deriving DecidableEq, Repr

/-- Stored row of the `unwrap_token_requests` table (`UnwrapTokenRequest`
model), unique on `(transaction_hash, log_index)`
(constraint `uq_unwrap_tx_log`). -/
structure UnwrapRow where
  transactionHash : String
  logIndex : Int
  registrationMomentumHeight : Int
  networkClass : Int
  chainId : Int
  toAddress : String
  tokenAddress : String
  tokenStandard : String
  tokenSymbol : String
  tokenDecimals : Int
  amount : Int
  signature : String
  redeemed : Bool
  revoked : Bool
  redeemableIn : Int
deriving DecidableEq, Repr

/-- The `values` dictionary `_upsert_wrap_requests` builds from one remote
record (including the `token.get(...)` defaults). -/
def wrapRowOfRecord (r : WrapRecord) : WrapRow where
  requestId := r.id
  networkClass := r.networkClass
  chainId := r.chainId
  toAddress := r.toAddress
  tokenStandard := r.tokenStandard
  tokenAddress := r.tokenAddress
  tokenSymbol := r.tokenSymbol.getD "UNKNOWN"
  tokenDecimals := r.tokenDecimals.getD 8
  amount := r.amount
  fee := r.fee
  signature := r.signature
  creationMomentumHeight := r.creationMomentumHeight
  confirmationsToFinality := r.confirmationsToFinality

/-- The `values` dictionary `_upsert_unwrap_requests` builds from one remote
record (`redeemed`/`revoked` become `r["redeemed"] == 1` / `r["revoked"] == 1`). -/
def unwrapRowOfRecord (r : UnwrapRecord) : UnwrapRow where
  transactionHash := r.transactionHash
  logIndex := r.logIndex
  registrationMomentumHeight := r.registrationMomentumHeight
  networkClass := r.networkClass
  chainId := r.chainId
  toAddress := r.toAddress
  tokenAddress := r.tokenAddress
  tokenStandard := r.tokenStandard
  tokenSymbol := r.tokenSymbol.getD "UNKNOWN"
  tokenDecimals := r.tokenDecimals.getD 8
  amount := r.amount
  signature := r.signature
  redeemed := r.redeemed = 1
  revoked := r.revoked = 1
  redeemableIn := r.redeemableIn

/-- One row of a PostgreSQL `INSERT ... ON CONFLICT DO UPDATE`: if a stored row
has the same natural key, only the designated mutable fields are overwritten
(`set_=` clause); otherwise the row is inserted.  `key` extracts the natural
key, `updateMut` overwrites exactly the mutable fields of an existing row with
the incoming values.  (PostgreSQL rejects a single statement whose VALUES touch
the same existing row twice, so batch-level facts below assume the batch's keys
are pairwise distinct, which is how the statement is used.) -/
def upsertOne {Row K : Type} [DecidableEq K] (key : Row → K)
    (updateMut : Row → Row → Row) (store : List Row) (v : Row) : List Row :=
  if store.any (fun row => decide (key row = key v)) then
    store.map (fun row => if key row = key v then updateMut row v else row)
  else
    store ++ [v]

/-- `_upsert_wrap_requests`: set-based upsert keyed on `request_id`; on
conflict only `confirmations_to_finality` is overwritten. -/
def upsertWrapRequests (store : List WrapRow) (records : List WrapRecord) :
    List WrapRow :=
  (records.map wrapRowOfRecord).foldl
    (upsertOne (fun row => row.requestId)
      (fun row v => { row with confirmationsToFinality := v.confirmationsToFinality }))
    store

/-- `_upsert_unwrap_requests`: set-based upsert keyed on
`(transaction_hash, log_index)`; on conflict only `redeemed`, `revoked` and
`redeemable_in` are overwritten. -/
def upsertUnwrapRequests (store : List UnwrapRow) (records : List UnwrapRecord) :
    List UnwrapRow :=
  (records.map unwrapRowOfRecord).foldl
    (upsertOne (fun row => (row.transactionHash, row.logIndex))
      (fun row v =>
        { row with
          redeemed := v.redeemed
          revoked := v.revoked
          redeemableIn := v.redeemableIn }))
    store

/-- The stored row carrying natural key `k`, if any (`SELECT ... WHERE
key = k`; at most one row exists thanks to the uniqueness constraints). -/
def findByKey {Row K : Type} [DecidableEq K] (key : Row → K) (k : K)
    (store : List Row) : Option Row :=
  store.find? (fun row => decide (key row = k))

/-- `_get_latest_wrap_momentum_height`: `SELECT max(creation_momentum_height)`,
`None` on an empty table. -/
def latestWrapHeight (store : List WrapRow) : Option Int :=
  (store.map (fun row => row.creationMomentumHeight)).max?

/-- `_get_latest_unwrap_momentum_height`: `SELECT
max(registration_momentum_height)`, `None` on an empty table. -/
def latestUnwrapHeight (store : List UnwrapRow) : Option Int :=
  (store.map (fun row => row.registrationMomentumHeight)).max?

/-- Python truthiness of the optional height cursor: `if latest_height:` is
false for `None` and for `0`. -/
def truthyHeight : Option Int → Bool
  | none => false
  | some h => decide (h ≠ 0)

/-- A paged remote listing: chunk `p` of `L` in pages of `pageSize` records
(most-recent-first listing as served by the bridge node; pages past the end
are empty). -/
def pagesOf {R : Type} (pageSize : Nat) (L : List R) : Nat → List R :=
  fun p => (L.drop (p * pageSize)).take pageSize

/-- A remote whose pages `≥ p` have disappeared (used to state that an
exception while processing page `p` behaves exactly like the listing ending
at page `p`). -/
def truncatePages {R : Type} (remote : Nat → List R) (p : Nat) :
    Nat → List R :=
  fun q => if q < p then remote q else []

/-- The failure-free environment: no page fetch or upsert raises. -/
def noFail : Nat → Bool := fun _ => false

/-- The paging loop of `_sync_new_wrap_requests` / `_sync_new_unwrap_requests`
(lines 197-228 / 310-341): fetch page, stop on an empty page, keep only
records whose height strictly exceeds the cursor (all records when the cursor
is falsy), upsert the survivors, stop as soon as a page yields strictly fewer
new records than it contained.  `failAt p = true` models an exception raised
while fetching or upserting page `p`; it is caught (`except ... break`).
`fuel` bounds the otherwise unbounded `while True`; every theorem below either
holds for all `fuel` or assumes enough of it.  Returns the store and the
number of page-fetch attempts. -/
def syncNewLoop {R S : Type} (remote : Nat → List R) (failAt : Nat → Bool)
    (heightOf : R → Int) (upsert : S → List R → S) (latest : Option Int) :
    Nat → Nat → S → S × Nat
  | 0, _, store => (store, 0)
  | fuel + 1, page, store =>
    if failAt page then (store, 1)
    else
      let records := remote page
      if records.isEmpty then (store, 1)
      else
        let newRecords :=
          if truthyHeight latest then
            records.filter (fun r => decide (heightOf r > latest.getD 0))
          else records
        let store' := if newRecords.isEmpty then store else upsert store newRecords
        if newRecords.length < records.length then (store', 1)
        else
          let rest := syncNewLoop remote failAt heightOf upsert latest fuel (page + 1) store'
          (rest.1, rest.2 + 1)

/-- The incremental catch-up pass for wraps (`_sync_new_wrap_requests` before
its pending-refresh call): recompute the cursor from the store, then run the
paging loop from page 0. -/
def syncNewWrapRequests (remote : Nat → List WrapRecord) (failAt : Nat → Bool)
    (fuel : Nat) (store : List WrapRow) : List WrapRow × Nat :=
  syncNewLoop remote failAt (fun r => r.creationMomentumHeight)
    upsertWrapRequests (latestWrapHeight store) fuel 0 store

/-- The incremental catch-up pass for unwraps (`_sync_new_unwrap_requests`
before its pending-refresh call). -/
def syncNewUnwrapRequests (remote : Nat → List UnwrapRecord) (failAt : Nat → Bool)
    (fuel : Nat) (store : List UnwrapRow) : List UnwrapRow × Nat :=
  syncNewLoop remote failAt (fun r => r.registrationMomentumHeight)
    upsertUnwrapRequests (latestUnwrapHeight store) fuel 0 store

/-- The pending wrap natural keys: `SELECT request_id WHERE
confirmations_to_finality > 0` collected into a Python set. -/
def pendingWrapIds (store : List WrapRow) : Finset String :=
  ((store.filter (fun row => decide (row.confirmationsToFinality > 0))).map
    (fun row => row.requestId)).toFinset

/-- The pending unwrap natural keys: `SELECT transaction_hash, log_index WHERE
redeemed = false AND revoked = false` collected into a Python set. -/
def pendingUnwrapKeys (store : List UnwrapRow) : Finset (String × Int) :=
  ((store.filter (fun row => !row.redeemed && !row.revoked)).map
    (fun row => (row.transactionHash, row.logIndex))).toFinset

/-- The paging loop of `_update_pending_wrap_requests` /
`_update_pending_unwrap_requests` (lines 261-291 / 381-414): while
`checked < pending` (strict subset), fetch the next page, stop on an empty
page, upsert the records whose key is pending and add their keys to
`checked` (the source guards the `checked_ids.update` behind
`if pending_records:`, which equals the unconditional union here because the
added key set is then empty), and break with a warning once `page > 100`
after the increment (the hard page-count ceiling).  `failAt p = true` models an exception raised
while fetching or upserting page `p` (caught: log and break).  The loop runs
at most 101 iterations (pages 0..100), so the structural `fuel` never runs
out when the wrappers below pass 102.  Returns the store, the number of
page-fetch attempts, and whether the ceiling warning was logged. -/
def updatePendingLoop {R K S : Type} [DecidableEq K] (remote : Nat → List R)
    (failAt : Nat → Bool) (keyOf : R → K) (upsert : S → List R → S)
    (pending : Finset K) :
    Nat → Nat → Finset K → S → S × Nat × Bool
  | 0, _, _, store => (store, 0, false)
  | fuel + 1, page, checked, store =>
    if checked ⊂ pending then
      if failAt page then (store, 1, false)
      else
        let records := remote page
        if records.isEmpty then (store, 1, false)
        else
          let pendingRecords := records.filter (fun r => decide (keyOf r ∈ pending))
          let store' :=
            if pendingRecords.isEmpty then store else upsert store pendingRecords
          let checked' := checked ∪ (pendingRecords.map keyOf).toFinset
          if page + 1 > 100 then (store', 1, true)
          else
            let rest :=
              updatePendingLoop remote failAt keyOf upsert pending fuel (page + 1)
                checked' store'
            (rest.1, rest.2.1 + 1, rest.2.2)
    else (store, 0, false)

/-- `_update_pending_wrap_requests`: skip when no wrap is pending, otherwise
run the pending paging loop from page 0 with an empty `checked` set. -/
def updatePendingWrapRequests (remote : Nat → List WrapRecord)
    (failAt : Nat → Bool) (store : List WrapRow) : List WrapRow × Nat × Bool :=
  let pending := pendingWrapIds store
  if pending = ∅ then (store, 0, false)
  else
    updatePendingLoop remote failAt (fun r => r.id) upsertWrapRequests pending
      102 0 ∅ store

/-- `_update_pending_unwrap_requests`: skip when no unwrap is pending,
otherwise run the pending paging loop from page 0. -/
def updatePendingUnwrapRequests (remote : Nat → List UnwrapRecord)
    (failAt : Nat → Bool) (store : List UnwrapRow) :
    List UnwrapRow × Nat × Bool :=
  let pending := pendingUnwrapKeys store
  if pending = ∅ then (store, 0, false)
  else
    updatePendingLoop remote failAt (fun r => (r.transactionHash, r.logIndex))
      upsertUnwrapRequests pending 102 0 ∅ store

/-- The pending keys observed in the first `j` remote pages (used to state
when the pending paging loop stops). -/
def observedPending {R K : Type} [DecidableEq K] (remote : Nat → List R)
    (keyOf : R → K) (pending : Finset K) : Nat → Finset K
  | 0 => ∅
  | j + 1 =>
    observedPending remote keyOf pending j ∪
      (((remote j).filter (fun r => decide (keyOf r ∈ pending))).map keyOf).toFinset

/-- The pending paging loop stops after fetching page `k` exactly when page
`k` is empty, the pending keys are all covered by pages `0..k`, or `k` is the
page ceiling 100. -/
def pendingStopCond {R K : Type} [DecidableEq K] (remote : Nat → List R)
    (keyOf : R → K) (pending : Finset K) (k : Nat) : Prop :=
  remote k = [] ∨ observedPending remote keyOf pending (k + 1) = pending ∨ k = 100

instance pendingStopCondDecidable {R K : Type} [DecidableEq R] [DecidableEq K]
    (remote : Nat → List R) (keyOf : R → K) (pending : Finset K) (k : Nat) :
    Decidable (pendingStopCond remote keyOf pending k) := by
  unfold pendingStopCond
  infer_instance

/-- The paging loop of `_full_sync_wrap_requests` / `_full_sync_unwrap_requests`
(lines 127-145 / 161-179): while fewer records have been synced than the
remote-reported total, fetch the next page, stop on an empty page, upsert the
whole page and continue.  An exception while fetching or upserting
(`failAt page = true`) is logged and re-raised, so the loop reports
`raised = true`.  Each iteration of the source loop adds at least one record
to `synced`, so at most `total` iterations run and the structural `fuel` of
`total + 1` passed by the wrappers never runs out.  Returns the store and
whether an exception was raised. -/
def fullSyncLoop {R S : Type} (remote : Nat → List R) (failAt : Nat → Bool)
    (upsert : S → List R → S) (total : Nat) :
    Nat → Nat → Nat → S → S × Bool
  | 0, _, _, store => (store, false)
  | fuel + 1, page, synced, store =>
    if synced < total then
      if failAt page then (store, true)
      else
        let records := remote page
        if records.isEmpty then (store, false)
        else
          fullSyncLoop remote failAt upsert total fuel (page + 1)
            (synced + records.length) (upsert store records)
    else (store, false)

/-- `_full_sync_wrap_requests`: read the remote total, then page from index 0
upserting every page. -/
def fullSyncWrapRequests (remote : Nat → List WrapRecord) (failAt : Nat → Bool)
    (total : Nat) (store : List WrapRow) : List WrapRow × Bool :=
  fullSyncLoop remote failAt upsertWrapRequests total (total + 1) 0 0 store

/-- `_full_sync_unwrap_requests`. -/
def fullSyncUnwrapRequests (remote : Nat → List UnwrapRecord)
    (failAt : Nat → Bool) (total : Nat) (store : List UnwrapRow) :
    List UnwrapRow × Bool :=
  fullSyncLoop remote failAt upsertUnwrapRequests total (total + 1) 0 0 store

/-- The durable state the collector works against: the two mirror tables and
the Redis `BRIDGE_SYNC_COMPLETE_KEY` readiness flag. -/
structure CollectorState where
  wraps : List WrapRow
  unwraps : List UnwrapRow
  syncComplete : Bool
deriving DecidableEq, Repr

/-- The remote environment seen by one bootstrap (`initial_sync`) run: the
remote-reported totals, the two paged listings, and which page fetches or
upserts raise. -/
structure BootEnv where
  wrapTotal : Nat
  unwrapTotal : Nat
  wrapPages : Nat → List WrapRecord
  unwrapPages : Nat → List UnwrapRecord
  wrapFailAt : Nat → Bool
  unwrapFailAt : Nat → Bool

/-- The remote environment seen by one `collect_new_data` tick: the paged
listings and, for each of the four paging loops the tick runs (incremental
wraps, pending wraps, incremental unwraps, pending unwraps), which page
fetches or upserts raise.  `fuel` is the page budget for the unbounded
incremental loops. -/
structure TickEnv where
  wrapPages : Nat → List WrapRecord
  unwrapPages : Nat → List UnwrapRecord
  wrapNewFailAt : Nat → Bool
  wrapPendFailAt : Nat → Bool
  unwrapNewFailAt : Nat → Bool
  unwrapPendFailAt : Nat → Bool
  fuel : Nat

/-- `_sync_new_wrap_requests` in full: the incremental catch-up loop followed
by the pending-refresh pass.  Every exception inside is caught, so the pass
always returns a store. -/
def syncNewWrapPass (env : TickEnv) (store : List WrapRow) : List WrapRow :=
  let afterNew := (syncNewWrapRequests env.wrapPages env.wrapNewFailAt env.fuel store).1
  (updatePendingWrapRequests env.wrapPages env.wrapPendFailAt afterNew).1

/-- `_sync_new_unwrap_requests` in full. -/
def syncNewUnwrapPass (env : TickEnv) (store : List UnwrapRow) : List UnwrapRow :=
  let afterNew :=
    (syncNewUnwrapRequests env.unwrapPages env.unwrapNewFailAt env.fuel store).1
  (updatePendingUnwrapRequests env.unwrapPages env.unwrapPendFailAt afterNew).1

/-- `collect_new_data`: one incremental tick (wraps then unwraps). -/
def collectNewData (env : TickEnv) (st : CollectorState) : CollectorState :=
  { st with
    wraps := syncNewWrapPass env st.wraps
    unwraps := syncNewUnwrapPass env st.unwraps }

/-- `initial_sync`: when both tables are empty run the wrap then unwrap full
syncs; afterwards set the readiness flag.  An exception in a full sync
propagates out of `initial_sync` before the flag is set; the second component
reports it (`true` = the exception escaped). -/
def initialSync (env : BootEnv) (st : CollectorState) : CollectorState × Bool :=
  if st.wraps.length = 0 ∧ st.unwraps.length = 0 then
    let wrapRun := fullSyncWrapRequests env.wrapPages env.wrapFailAt env.wrapTotal st.wraps
    if wrapRun.2 then ({ st with wraps := wrapRun.1 }, true)
    else
      let unwrapRun :=
        fullSyncUnwrapRequests env.unwrapPages env.unwrapFailAt env.unwrapTotal st.unwraps
      if unwrapRun.2 then ({ st with wraps := wrapRun.1, unwraps := unwrapRun.1 }, true)
      else
        ({ wraps := wrapRun.1, unwraps := unwrapRun.1, syncComplete := true }, false)
  else ({ st with syncComplete := true }, false)

/-- Outcome of the worker process (`bridge_worker.main` around
`BridgeCollector.run`): either the process exited non-zero because an
exception escaped `initial_sync`, or it is in the steady polling loop. -/
inductive WorkerOutcome where
  | exited (st : CollectorState)
  | running (st : CollectorState)
deriving DecidableEq, Repr

/-- `BridgeCollector.run` as seen through a finite schedule of ticks: run
`initial_sync`; if it raised, `main` logs the error and calls `sys.exit(1)`.
Otherwise every scheduled tick runs `collect_new_data`, whose failures are
caught in the polling loop, so ticks never terminate the process. -/
def runWorker (boot : BootEnv) (ticks : List TickEnv) (st : CollectorState) :
    WorkerOutcome :=
  match initialSync boot st with
  | (st', true) => .exited st'
  | (st', false) => .running (ticks.foldl (fun s env => collectNewData env s) st')

/-- Failures a bridge read request can end in: the service-unavailable
retry-later response of the readiness gate, or a Python `TypeError` raised at
a call boundary (an unexpected keyword argument). -/
inductive ApiFailure where
  | notReadyRetryLater
  | typeError
deriving DecidableEq, Repr

/-- Modelled from the spec: `require_bridge_sync_complete` is imported from
`src/dependencies` by `src/api/v1/bridge.py` and exercised by
`tests/test_bridge.py`, but its definition is not present in
`src/src/dependencies.py`.  Spec §6: read endpoints that depend on ledger data
must return a "not yet ready" signal (a retry-later response) until the
sync-complete flag is set.  `syncFlag` is the value of the Redis
`BRIDGE_SYNC_COMPLETE_KEY`. -/
def require_bridge_sync_complete (syncFlag : Bool) : Except ApiFailure Unit :=
  if syncFlag then .ok () else .error .notReadyRetryLater

/-- Keyword parameters accepted by `BridgeService.get_wrap_requests`
(`src/services/bridge_service.py` lines 31-39). -/
def bridgeServiceWrapParams : List String :=
  ["page", "page_size", "chain_id", "token_standard", "token_symbol", "to_address"]

/-- Keyword arguments the `/bridge/wraps` route passes to
`BridgeService.get_wrap_requests` (`src/api/v1/bridge.py` lines 48-56). -/
def wrapsRouteKwargs : List String :=
  ["page", "page_size", "chain_id", "token_standard", "token_symbol",
   "to_address", "confirmations_to_finality"]

/-- Keyword parameters accepted by `BridgeService.get_unwrap_requests`. -/
def bridgeServiceUnwrapParams : List String :=
  ["page", "page_size", "chain_id", "token_standard", "token_symbol",
   "to_address", "redeemed", "revoked"]

/-- Keyword arguments the `/bridge/unwraps` route passes to
`BridgeService.get_unwrap_requests`. -/
def unwrapsRouteKwargs : List String :=
  ["page", "page_size", "chain_id", "token_standard", "token_symbol",
   "to_address", "redeemed", "revoked"]

/-- Query parameters of the `/bridge/wraps` route. -/
structure WrapsQuery where
  page : Nat
  pageSize : Nat
  chainId : Option Int
  tokenStandard : Option String
  tokenSymbol : Option String
  toAddress : Option String
  confirmationsToFinality : Option Int
deriving DecidableEq, Repr

/-- Query parameters of the `/bridge/unwraps` route. -/
structure UnwrapsQuery where
  page : Nat
  pageSize : Nat
  chainId : Option Int
  tokenStandard : Option String
  tokenSymbol : Option String
  toAddress : Option String
  redeemed : Option Bool
  revoked : Option Bool
deriving DecidableEq, Repr

/-- Paginated list response (count of all matching rows, the requested page
slice sorted by height descending). -/
structure ListResponse (Row : Type) where
  count : Nat
  page : Nat
  pageSize : Nat
  items : List Row
deriving DecidableEq, Repr

/-- `BridgeService.get_wrap_requests`: apply the optional filters, count the
matches, order by `creation_momentum_height` descending, and slice
`offset(page * page_size).limit(page_size)`.  (Note: the service accepts no
confirmations filter.) -/
def getWrapRequests (store : List WrapRow) (page pageSize : Nat)
    (chainId : Option Int) (tokenStandard tokenSymbol toAddress : Option String) :
    ListResponse WrapRow :=
  let filtered := store.filter (fun row =>
    (match chainId with | none => true | some c => decide (row.chainId = c)) &&
    (match tokenStandard with | none => true | some t => decide (row.tokenStandard = t)) &&
    (match tokenSymbol with | none => true | some t => decide (row.tokenSymbol = t)) &&
    (match toAddress with | none => true | some a => decide (row.toAddress = a)))
  let sorted := filtered.mergeSort
    (fun a b => decide (b.creationMomentumHeight ≤ a.creationMomentumHeight))
  { count := filtered.length
    page := page
    pageSize := pageSize
    items := (sorted.drop (page * pageSize)).take pageSize }

/-- `BridgeService.get_unwrap_requests`: filters including `redeemed` and
`revoked`, ordered by `registration_momentum_height` descending. -/
def getUnwrapRequests (store : List UnwrapRow) (page pageSize : Nat)
    (chainId : Option Int) (tokenStandard tokenSymbol toAddress : Option String)
    (redeemed revoked : Option Bool) : ListResponse UnwrapRow :=
  let filtered := store.filter (fun row =>
    (match chainId with | none => true | some c => decide (row.chainId = c)) &&
    (match tokenStandard with | none => true | some t => decide (row.tokenStandard = t)) &&
    (match tokenSymbol with | none => true | some t => decide (row.tokenSymbol = t)) &&
    (match toAddress with | none => true | some a => decide (row.toAddress = a)) &&
    (match redeemed with | none => true | some b => row.redeemed == b) &&
    (match revoked with | none => true | some b => row.revoked == b))
  let sorted := filtered.mergeSort
    (fun a b => decide (b.registrationMomentumHeight ≤ a.registrationMomentumHeight))
  { count := filtered.length
    page := page
    pageSize := pageSize
    items := (sorted.drop (page * pageSize)).take pageSize }

/-- The `GET /bridge/wraps` route (`get_wrap_requests` in
`src/api/v1/bridge.py`): the readiness gate runs as a dependency, then the
route calls `BridgeService.get_wrap_requests` with the keyword arguments of
`wrapsRouteKwargs`.  Python raises `TypeError` when a passed keyword is not a
parameter of the called function. -/
def getWrapRequestsRoute (syncFlag : Bool) (store : List WrapRow)
    (q : WrapsQuery) : Except ApiFailure (ListResponse WrapRow) := do
  let _ ← require_bridge_sync_complete syncFlag
  if wrapsRouteKwargs.all (fun n => bridgeServiceWrapParams.contains n) then
    .ok (getWrapRequests store q.page q.pageSize q.chainId q.tokenStandard
      q.tokenSymbol q.toAddress)
  else .error .typeError

/-- The `GET /bridge/unwraps` route: readiness gate, then the service call
(whose keyword arguments all match the service's parameters). -/
def getUnwrapRequestsRoute (syncFlag : Bool) (store : List UnwrapRow)
    (q : UnwrapsQuery) : Except ApiFailure (ListResponse UnwrapRow) := do
  let _ ← require_bridge_sync_complete syncFlag
  if unwrapsRouteKwargs.all (fun n => bridgeServiceUnwrapParams.contains n) then
    .ok (getUnwrapRequests store q.page q.pageSize q.chainId q.tokenStandard
      q.tokenSymbol q.toAddress q.redeemed q.revoked)
  else .error .typeError

/-- `STATE_MAP` of `src/utils/rpc_client.py`: the decoded orchestrator state
labels. -/
def STATE_MAP : Int → Option String := fun n =>
  if n = 0 then some "LiveState"
  else if n = 1 then some "KeyGenState"
  else if n = 2 then some "HaltedState"
  else if n = 3 then some "EmergencyState"
  else if n = 4 then some "ReSignState"
  else none

/-- `ONLINE_STATES`: states that count as online. -/
def onlineStates : List Int := [0, 1]

/-- One per-network queue-depth entry of a snapshot. -/
structure NetworkStat where
  network : String
  wrapsCount : Int
  unwrapsCount : Int
deriving DecidableEq, Repr

/-- The `result` object of a `getIdentity` reply (fields read with `.get` and
an `"Unknown"` default). -/
structure IdentityResult where
  pillarName : Option String
  producer : Option String
deriving DecidableEq, Repr

/-- One entry of the `networks` map in a `getStatus` reply. -/
structure NetworkEntry where
  wrapsToSign : Option Int
  unwrapsToSign : Option Int
deriving DecidableEq, Repr

/-- The `result` object of a `getStatus` reply: the numeric state (absent when
the key is missing) and the `networks` map (absent keys give `{}`). -/
structure StatusResult where
  state : Option Int
  networks : String → Option NetworkEntry

/-- `_process_network_stats`: for each of the three mapped network names,
read the entry (empty default) and its counters (0 default). -/
def processNetworkStats (stRes : StatusResult) : List NetworkStat :=
  [("BNB Chain", "bnb"), ("Ethereum", "eth"), ("Supernova", "supernova")].map
    (fun apiDb =>
      let entry := (stRes.networks apiDb.1).getD { wrapsToSign := none, unwrapsToSign := none }
      { network := apiDb.2
        wrapsCount := entry.wrapsToSign.getD 0
        unwrapsCount := entry.unwrapsToSign.getD 0 })

/-- The standardized per-node result dictionary built by `RPCClient`
(`_process_response` / `_create_error_response`), which
`OrchestratorService.collect_all_status` turns into a snapshot row. -/
structure QueryResult where
  pillarName : Option String
  producerAddress : Option String
  state : Option Int
  stateName : Option String
  isOnline : Bool
  errorMessage : Option String
  networkStats : List NetworkStat
deriving DecidableEq, Repr

/-- `_process_response`: decode the state number into a label
(`STATE_MAP.get(state_num, "Unknown")`, where a missing state key gives
`None` and hence `"Unknown"`), classify online as membership in
`ONLINE_STATES` (`None in [0, 1]` is false), and extract the network stats. -/
def processResponse (idRes : IdentityResult) (stRes : StatusResult) :
    QueryResult where
  pillarName := some (idRes.pillarName.getD "Unknown")
  producerAddress := some (idRes.producer.getD "Unknown")
  state := stRes.state
  stateName := some ((stRes.state.bind STATE_MAP).getD "Unknown")
  isOnline := match stRes.state with
    | some n => onlineStates.contains n
    | none => false
  errorMessage := none
  networkStats := processNetworkStats stRes

/-- `_create_error_response`: offline, no identity, populated error text and
zeroed queue counters for the three networks. -/
def createErrorResponse (error : String) : QueryResult where
  pillarName := none
  producerAddress := none
  state := none
  stateName := none
  isOnline := false
  errorMessage := some error
  networkStats :=
    [{ network := "bnb", wrapsCount := 0, unwrapsCount := 0 },
     { network := "eth", wrapsCount := 0, unwrapsCount := 0 },
     { network := "supernova", wrapsCount := 0, unwrapsCount := 0 }]

/-- How one node's RPC exchange goes: both calls succeed, a reply carries an
`error` field (protocol failure), the HTTP request fails
(`httpx.RequestError`), or an unexpected exception occurs. -/
inductive NodeBehavior where
  | success (idRes : IdentityResult) (stRes : StatusResult)
  | rpcFieldError (msg : String)
  | requestError (msg : String)
  | unexpectedError (msg : String)

/-- `RPCClient.query_orchestrator`: every failure mode is caught inside and
becomes a standardized error response, so the call never raises. -/
def queryOrchestrator (b : NodeBehavior) : QueryResult :=
  match b with
  | .success idRes stRes => processResponse idRes stRes
  | .rpcFieldError msg => createErrorResponse msg
  | .requestError msg => createErrorResponse ("Network error: " ++ msg)
  | .unexpectedError msg => createErrorResponse ("Error: " ++ msg)

/-- Whether the exchange was a network or protocol failure. -/
def NodeBehavior.isFailure : NodeBehavior → Bool
  | .success _ _ => false
  | _ => true

/-- A configured orchestrator node (`OrchestratorNode`). -/
structure OrchNode where
  nodeId : Int
  name : String
  isActive : Bool
deriving DecidableEq, Repr

/-- A snapshot row as written by `collect_all_status` (node id plus the
standardized query result; `NetworkStats` children are the result's
`networkStats`). -/
structure SnapshotRow where
  nodeId : Int
  result : QueryResult
deriving DecidableEq, Repr

/-- The `for node, result in zip(nodes, results)` loop of
`collect_all_status`: one snapshot per node, in order, with `behave i` the
exchange of the `i`-th node.  (The `isinstance(result, Exception)` branch is
unreachable because `query_orchestrator` catches every exception.) -/
def collectLoop (behave : Nat → NodeBehavior) : Nat → List OrchNode → List SnapshotRow
  | _, [] => []
  | i, node :: rest =>
    { nodeId := node.nodeId, result := queryOrchestrator (behave i) } ::
      collectLoop behave (i + 1) rest

/-- `OrchestratorService.collect_all_status`: query the active nodes, build
one snapshot per node, count the online ones while looping, and commit all
snapshots in one transaction (the returned list).  Returns the snapshot batch
and the online count. -/
def collectAllStatus (nodes : List OrchNode) (behave : Nat → NodeBehavior) :
    List SnapshotRow × Nat :=
  let active := nodes.filter (fun node => node.isActive)
  if active.isEmpty then ([], 0)
  else
    let snaps := collectLoop behave 0 active
    (snaps, snaps.foldl (fun n s => if s.result.isOnline then n + 1 else n) 0)

/-- The state-label table exactly as the claim words it: states 0-4 map to
LiveState, KeyGenState, HaltedState, EmergencyState, ReSignState, and any
other or missing state yields "Unknown". -/
def specStateLabel : Option Int → String := fun s =>
  match s with
  | some 0 => "LiveState"
  | some 1 => "KeyGenState"
  | some 2 => "HaltedState"
  | some 3 => "EmergencyState"
  | some 4 => "ReSignState"
  | _ => "Unknown"

/-- Online exactly when the reported numeric state is 0 or 1, as the claim
words it. -/
def specIsOnline (s : Option Int) : Bool :=
  decide (s = some 0 ∨ s = some 1)

/-- A wrap row with the given id, creation height and confirmations (the
other columns are fixed sample values). -/
def sampleWrapRow (idStr : String) (h conf : Int) : WrapRow where
  requestId := idStr
  networkClass := 2
  chainId := 1
  toAddress := "0xdest"
  tokenStandard := "zts1znn"
  tokenAddress := "0xtok"
  tokenSymbol := "ZNN"
  tokenDecimals := 8
  amount := 100
  fee := 1
  signature := "sig"
  creationMomentumHeight := h
  confirmationsToFinality := conf

/-- A remote wrap record with the given id, creation height and
confirmations, matching `sampleWrapRow` on every other field. -/
def sampleWrapRecord (idStr : String) (h conf : Int) : WrapRecord where
  id := idStr
  networkClass := 2
  chainId := 1
  toAddress := "0xdest"
  tokenStandard := "zts1znn"
  tokenAddress := "0xtok"
  tokenSymbol := some "ZNN"
  tokenDecimals := some 8
  amount := 100
  fee := 1
  signature := "sig"
  creationMomentumHeight := h
  confirmationsToFinality := conf

/-- An unwrap row with the given key, registration height and mutable
fields. -/
def sampleUnwrapRow (tx : String) (li h : Int) (red rev : Bool) (ri : Int) :
    UnwrapRow where
  transactionHash := tx
  logIndex := li
  registrationMomentumHeight := h
  networkClass := 2
  chainId := 1
  toAddress := "z1dest"
  tokenAddress := "0xtok"
  tokenStandard := "zts1znn"
  tokenSymbol := "ZNN"
  tokenDecimals := 8
  amount := 100
  signature := "sig"
  redeemed := red
  revoked := rev
  redeemableIn := ri

/-- A remote unwrap record with the given key, registration height and
mutable fields (`red`/`rev` remote-encoded as integers). -/
def sampleUnwrapRecord (tx : String) (li h : Int) (red rev : Int) (ri : Int) :
    UnwrapRecord where
  transactionHash := tx
  logIndex := li
  registrationMomentumHeight := h
  networkClass := 2
  chainId := 1
  toAddress := "z1dest"
  tokenAddress := "0xtok"
  tokenStandard := "zts1znn"
  tokenSymbol := some "ZNN"
  tokenDecimals := some 8
  amount := 100
  signature := "sig"
  redeemed := red
  revoked := rev
  redeemableIn := ri

/-- C1 counterexample remote: page 0 carries one record whose creation height
is 0 (equal to the stored maximum), later pages are empty. -/
def c1Remote : Nat → List WrapRecord :=
  fun p => if p = 0 then [sampleWrapRecord "a" 0 3] else []

/-- C2 data: one new record (height 2) followed by one already-seen record
(height 1); the store holds the already-seen record, so its maximum height is
1. -/
def c2Listing : List WrapRecord :=
  [sampleWrapRecord "a" 2 0, sampleWrapRecord "b" 1 0]

/-- C2 store: the already-seen record. -/
def c2Store : List WrapRow := [sampleWrapRow "b" 1 0]

/-- C5 counterexample remote: page 0 reports the pending wrap with a larger
confirmations value (5) than the stored one (3). -/
def c5Remote : Nat → List WrapRecord :=
  fun p => if p = 0 then [sampleWrapRecord "p" 10 5] else []

/-- C5 counterexample store: a pending wrap with confirmations 3. -/
def c5Store : List WrapRow := [sampleWrapRow "p" 10 3]

/-- C6 counterexample bootstrap environment: the remote reports one wrap
record, and the very first wrap page fetch raises. -/
def c6Boot : BootEnv where
  wrapTotal := 1
  unwrapTotal := 0
  wrapPages := fun _ => []
  unwrapPages := fun _ => []
  wrapFailAt := fun p => decide (p = 0)
  unwrapFailAt := fun _ => false

/-- The initial collector state: empty tables, readiness flag unset. -/
def emptyCollectorState : CollectorState where
  wraps := []
  unwraps := []
  syncComplete := false

/-- C8 store: two finalized wrap rows, as in the repository's own test
fixture for the confirmations filter. -/
def c8Store : List WrapRow :=
  [sampleWrapRow "abc" 11919422 0, sampleWrapRow "def" 11919421 0]

/-- C8 query: `GET /bridge/wraps?confirmations_to_finality=0`. -/
def c8Query : WrapsQuery where
  page := 0
  pageSize := 50
  chainId := none
  tokenStandard := none
  tokenSymbol := none
  toAddress := none
  confirmationsToFinality := some 0

/-- An unwraps query with default pagination and no filters. -/
def c7UnwrapQuery : UnwrapsQuery where
  page := 0
  pageSize := 50
  chainId := none
  tokenStandard := none
  tokenSymbol := none
  toAddress := none
  redeemed := none
  revoked := none

/-- Five active configured nodes (C9 scenario). -/
def c9Nodes : List OrchNode :=
  [{ nodeId := 1, name := "n1", isActive := true },
   { nodeId := 2, name := "n2", isActive := true },
   { nodeId := 3, name := "n3", isActive := true },
   { nodeId := 4, name := "n4", isActive := true },
   { nodeId := 5, name := "n5", isActive := true }]

/-- Node 4 (0-indexed) is unreachable; the others answer with a live state
and empty network maps (C9 scenario). -/
def c9Behave : Nat → NodeBehavior := fun i =>
  if i = 4 then .requestError "connect timeout"
  else .success { pillarName := some "pillar", producer := some "z1producer" }
    { state := some 0, networks := fun _ => none }

/-- C10: when both RPC calls return without error, the snapshot is online
exactly when the reported numeric state is 0 or 1; states 0-4 decode to
LiveState, KeyGenState, HaltedState, EmergencyState, ReSignState, and any
other or missing state yields the label "Unknown" together with an offline
snapshot (`specStateLabel` / `specIsOnline` word the claim's table
literally). -/
theorem state_decoding_matches_spec (idRes : IdentityResult) (stRes : StatusResult) :
    (processResponse idRes stRes).isOnline = specIsOnline stRes.state ∧
    (processResponse idRes stRes).stateName = some (specStateLabel stRes.state) ∧
    (specIsOnline stRes.state = true ↔ stRes.state = some 0 ∨ stRes.state = some 1) := by
  refine ⟨?_, ?_, by simp [specIsOnline]⟩
  · cases hst : stRes.state with
    | none => simp [processResponse, hst, specIsOnline]
    | some n =>
      by_cases h0 : n = 0
      · simp [processResponse, hst, specIsOnline, onlineStates, h0]
      · by_cases h1 : n = 1
        · simp [processResponse, hst, specIsOnline, onlineStates, h1]
        · simp [processResponse, hst, specIsOnline, onlineStates, h0, h1]
  · cases hst : stRes.state with
    | none => simp [processResponse, hst, specStateLabel, STATE_MAP]
    | some n =>
      by_cases h0 : n = 0
      · simp [processResponse, hst, specStateLabel, STATE_MAP, h0]
      · by_cases h1 : n = 1
        · simp [processResponse, hst, specStateLabel, STATE_MAP, h0, h1]
        · by_cases h2 : n = 2
          · simp [processResponse, hst, specStateLabel, STATE_MAP, h0, h1, h2]
          · by_cases h3 : n = 3
            · simp [processResponse, hst, specStateLabel, STATE_MAP, h0, h1, h2, h3]
            · by_cases h4 : n = 4
              · simp [processResponse, hst, specStateLabel, STATE_MAP, h0, h1, h2, h3, h4]
              · simp [processResponse, hst, specStateLabel, STATE_MAP, h0, h1, h2, h3, h4]

/-- C8: with the sync flag set and a `confirmations_to_finality` filter
supplied, the `/bridge/wraps` route does not return the filtered rows: the
route forwards the keyword argument `confirmations_to_finality` to
`BridgeService.get_wrap_requests`, which has no such parameter, so Python
raises `TypeError` (HTTP 500).  The repository's own test
`test_get_wraps_filter_by_confirmations` expects a 200 with the filtered
rows. -/
theorem wraps_confirmations_filter_type_error :
    getWrapRequestsRoute true c8Store c8Query = .error .typeError := by
  rfl

/-- When the cursor is a nonzero height `H` and every remote record's height
is at most `H`, the incremental paging loop filters every page down to
nothing and leaves the store untouched (it breaks on the first page, full or
empty, and on failures). -/
theorem syncNewLoop_fst_of_le {R S : Type} (remote : Nat → List R)
    (failAt : Nat → Bool) (heightOf : R → Int) (upsert : S → List R → S)
    (H : Int) (hH : H ≠ 0) (hle : ∀ p r, r ∈ remote p → heightOf r ≤ H) :
    ∀ fuel page store,
      (syncNewLoop remote failAt heightOf upsert (some H) fuel page store).1 = store := by
  intro fuel page store
  cases fuel with
  | zero => rfl
  | succ n =>
    have htr : truthyHeight (some H) = true := by simp [truthyHeight, hH]
    have hfil : List.filter (fun r => decide (H < heightOf r)) (remote page) = [] := by
      refine List.filter_eq_nil_iff.mpr ?_
      intro r hr
      simpa using not_lt.mpr (hle page r hr)
    by_cases hf : failAt page
    · simp [syncNewLoop, hf]
    · by_cases he : (remote page).isEmpty
      · simp [syncNewLoop, hf, he]
      · have hlen : 0 < (remote page).length := by
          cases hrem : remote page with
          | nil => rw [hrem] at he; simp at he
          | cons a l => simp [hrem]
        simp [syncNewLoop, hf, he, htr, hfil, hlen]

/-- C1 (amended: the stored maximum height must be nonzero, because
`if latest_height:` treats a cursor of 0 like a missing one): when the local
maxima are `Hw`/`Hu` with `Hw ≠ 0`, `Hu ≠ 0` and every record the remote
returns has height at most the respective maximum, the incremental sync tick
leaves both stores exactly as they were — zero new rows and zero changed
mutable fields. -/
theorem incremental_sync_cursor_noop
    (remoteW : Nat → List WrapRecord) (remoteU : Nat → List UnwrapRecord)
    (failW failU : Nat → Bool) (fuel : Nat)
    (storeW : List WrapRow) (storeU : List UnwrapRow) (Hw Hu : Int)
    (hW : latestWrapHeight storeW = some Hw) (hWne : Hw ≠ 0)
    (hWle : ∀ p r, r ∈ remoteW p → r.creationMomentumHeight ≤ Hw)
    (hU : latestUnwrapHeight storeU = some Hu) (hUne : Hu ≠ 0)
    (hUle : ∀ p r, r ∈ remoteU p → r.registrationMomentumHeight ≤ Hu) :
    (syncNewWrapRequests remoteW failW fuel storeW).1 = storeW ∧
    (syncNewUnwrapRequests remoteU failU fuel storeU).1 = storeU := by
  constructor
  · unfold syncNewWrapRequests
    rw [hW]
    exact syncNewLoop_fst_of_le remoteW failW _ _ Hw hWne hWle fuel 0 storeW
  · unfold syncNewUnwrapRequests
    rw [hU]
    exact syncNewLoop_fst_of_le remoteU failU _ _ Hu hUne hUle fuel 0 storeU

/-- Witness for C1 at a concrete input: stores with maximum height 7, a
remote that returns nothing new. -/
theorem incremental_sync_cursor_noop_witness :
    (syncNewWrapRequests (fun _ => [sampleWrapRecord "a" 7 1]) noFail 3
      [sampleWrapRow "a" 7 2]).1 = [sampleWrapRow "a" 7 2] ∧
    (syncNewUnwrapRequests (fun _ => [sampleUnwrapRecord "t" 0 7 0 0 5]) noFail 3
      [sampleUnwrapRow "t" 0 7 false false 6]).1 =
        [sampleUnwrapRow "t" 0 7 false false 6] :=
  incremental_sync_cursor_noop
    (fun _ => [sampleWrapRecord "a" 7 1]) (fun _ => [sampleUnwrapRecord "t" 0 7 0 0 5])
    noFail noFail 3 [sampleWrapRow "a" 7 2] [sampleUnwrapRow "t" 0 7 false false 6]
    7 7 (by decide) (by decide)
    (by intro p r hr; rw [List.mem_singleton] at hr; subst hr; decide)
    (by decide) (by decide)
    (by intro p r hr; rw [List.mem_singleton] at hr; subst hr; decide)

/-- C1 counterexample: the stored maximum creation height is `H = 0`, the
remote only ever returns one record with height `0 ≤ H`, yet the tick
overwrites the stored record's `confirmations_to_finality` (5 becomes 3)
because `if latest_height:` treats the 0 cursor as missing and re-upserts
everything.  The claim's conclusion "zero changed mutable fields" fails. -/
theorem incremental_sync_cursor_zero_cex :
    latestWrapHeight [sampleWrapRow "a" 0 5] = some 0 ∧
    c1Remote 0 = [sampleWrapRecord "a" 0 3] ∧
    (sampleWrapRecord "a" 0 3).creationMomentumHeight ≤ 0 ∧
    (syncNewWrapRequests c1Remote noFail 2 [sampleWrapRow "a" 0 5]).1 =
      [sampleWrapRow "a" 0 3] ∧
    (sampleWrapRow "a" 0 3).confirmationsToFinality ≠
      (sampleWrapRow "a" 0 5).confirmationsToFinality := by
  refine ⟨by decide, by decide, by decide, ?_, by decide⟩
  decide

/-- The incremental paging loop only looks at pages from its current index
on: running it from page `p₁` over one remote equals running it from `p₂`
over another remote whose pages agree after the respective offsets. -/
theorem syncNewLoop_shift {R S : Type} (heightOf : R → Int)
    (upsert : S → List R → S) (latest : Option Int) :
    ∀ (fuel : Nat) (remote₁ remote₂ : Nat → List R) (p₁ p₂ : Nat),
      (∀ q, remote₁ (p₁ + q) = remote₂ (p₂ + q)) →
      ∀ store : S,
        syncNewLoop remote₁ noFail heightOf upsert latest fuel p₁ store =
        syncNewLoop remote₂ noFail heightOf upsert latest fuel p₂ store := by
  intro fuel
  induction fuel with
  | zero => intro _ _ _ _ _ _; rfl
  | succ n ih =>
    intro remote₁ remote₂ p₁ p₂ hq store
    have h0 : remote₁ p₁ = remote₂ p₂ := by simpa using hq 0
    have hq' : ∀ q, remote₁ (p₁ + 1 + q) = remote₂ (p₂ + 1 + q) := by
      intro q
      have h := hq (1 + q)
      rwa [← Nat.add_assoc, ← Nat.add_assoc] at h
    simp only [syncNewLoop, noFail]
    rw [h0]
    simp [ih remote₁ remote₂ (p₁ + 1) (p₂ + 1) hq']

/-- Page-fetch count of the incremental loop over a listing of `N` new
records (heights above the cursor) followed by at least one already-seen
record (heights at or below the cursor), paged in chunks of `P`: the loop
performs exactly `N / P + 1` fetches — the floor quotient, because when `P`
does not divide `N` the final, partly-new page already yields fewer new
records than it contains and doubles as the confirming page. -/
theorem syncNewLoop_count {R S : Type} (P : Nat) (hP : 0 < P)
    (heightOf : R → Int) (upsert : S → List R → S) (H : Int) (hH : H ≠ 0)
    (oldL : List R) (hold : ∀ r ∈ oldL, heightOf r ≤ H) (holdne : oldL ≠ []) :
    ∀ (fuel : Nat) (newL : List R), (∀ r ∈ newL, H < heightOf r) →
      newL.length / P + 1 ≤ fuel → ∀ store : S,
      (syncNewLoop (pagesOf P (newL ++ oldL)) noFail heightOf upsert (some H)
        fuel 0 store).2 = newL.length / P + 1 := by
  intro fuel
  induction fuel with
  | zero => intro newL hnew hfuel store; exact absurd hfuel (Nat.not_succ_le_zero _)
  | succ n ih =>
    intro newL hnew hfuel store
    have htr : truthyHeight (some H) = true := by simp [truthyHeight, hH]
    have holdpos : 0 < oldL.length := List.length_pos.mpr holdne
    by_cases hsmall : newL.length < P
    · have hpage0 : pagesOf P (newL ++ oldL) 0 =
          newL ++ oldL.take (P - newL.length) := by
        simp [pagesOf, List.take_append_eq_append_take,
          List.take_of_length_le (le_of_lt hsmall)]
      have hfilnew : newL.filter (fun r => decide (H < heightOf r)) = newL :=
        List.filter_eq_self.mpr (fun r hr => by simpa using hnew r hr)
      have hfilold : (oldL.take (P - newL.length)).filter
          (fun r => decide (H < heightOf r)) = [] :=
        List.filter_eq_nil_iff.mpr
          (fun r hr => by simpa using not_lt.mpr (hold r (List.mem_of_mem_take hr)))
      have htk : (oldL.take (P - newL.length)).length =
          min (P - newL.length) oldL.length := List.length_take _ _
      have hcond : newL.length < (newL ++ oldL.take (P - newL.length)).length := by
        rw [List.length_append, htk]
        omega
      have hreclen : 0 < (newL ++ oldL.take (P - newL.length)).length := by
        omega
      have hrecne : ((newL ++ oldL.take (P - newL.length)).isEmpty) = false := by
        cases hni : newL ++ oldL.take (P - newL.length) with
        | nil => rw [hni] at hreclen; simp at hreclen
        | cons a l => rfl
      have hdiv : newL.length / P = 0 := Nat.div_eq_of_lt hsmall
      simp [syncNewLoop, noFail, htr, hpage0, List.filter_append, hfilnew,
        hfilold, hrecne, hsmall, holdpos, hdiv]
    · have hPle : P ≤ newL.length := le_of_not_lt hsmall
      have hpage0 : pagesOf P (newL ++ oldL) 0 = newL.take P := by
        simp [pagesOf, List.take_append_eq_append_take,
          Nat.sub_eq_zero_of_le hPle]
      have hfilnew : (newL.take P).filter (fun r => decide (H < heightOf r)) =
          newL.take P :=
        List.filter_eq_self.mpr
          (fun r hr => by simpa using hnew r (List.mem_of_mem_take hr))
      have hlenP : (newL.take P).length = P := by
        rw [List.length_take]
        omega
      have hrecne : ((newL.take P).isEmpty) = false := by
        cases hni : newL.take P with
        | nil => rw [hni] at hlenP; simp at hlenP; omega
        | cons a l => rfl
      have hdiv : newL.length / P = (newL.length - P) / P + 1 := by
        rw [Nat.div_eq]
        rw [if_pos ⟨hP, hPle⟩]
      have hshift : ∀ store' : S,
          syncNewLoop (pagesOf P (newL ++ oldL)) noFail heightOf upsert (some H)
            n 1 store' =
          syncNewLoop (pagesOf P (newL.drop P ++ oldL)) noFail heightOf upsert
            (some H) n 0 store' := by
        intro store'
        refine syncNewLoop_shift heightOf upsert (some H) n _ _ 1 0 ?_ store'
        intro q
        have hdropP : (newL ++ oldL).drop P = newL.drop P ++ oldL := by
          rw [List.drop_append_eq_append_drop, Nat.sub_eq_zero_of_le hPle,
            List.drop_zero]
        have harith : (1 + q) * P = P + q * P := by ring
        simp only [pagesOf, Nat.zero_add, ← hdropP, List.drop_drop, harith]
      rw [hdiv] at hfuel
      have ihres := ih (newL.drop P)
        (fun r hr => hnew r (List.mem_of_mem_drop hr))
        (by rw [List.length_drop]; omega)
      simp [syncNewLoop, noFail, htr, hpage0, hfilnew, hlenP, hrecne, hshift,
        ihres, hdiv]

/-- C2 (amended: paging stops at the first fetched page that yields strictly
fewer new records than it contained, which makes the fetch count the floor
quotient `N / P + 1`, not `⌈N / P⌉ + 1`: when `P` divides `N` this is the
minimal `N / P` retrieval fetches plus one full confirming page, and
otherwise the final, partly-new page doubles as the confirming page).  Both
incremental loops, run against a remote listing of `N` new records followed
by at least one already-seen record in pages of `P`, perform exactly
`N / P + 1` page fetches. -/
theorem incremental_sync_fetch_count
    (P : Nat) (hP : 0 < P)
    (newW oldW : List WrapRecord) (storeW : List WrapRow) (Hw : Int)
    (hW : latestWrapHeight storeW = some Hw) (hWne : Hw ≠ 0)
    (hnewW : ∀ r ∈ newW, Hw < r.creationMomentumHeight)
    (holdW : ∀ r ∈ oldW, r.creationMomentumHeight ≤ Hw) (holdWne : oldW ≠ [])
    (newU oldU : List UnwrapRecord) (storeU : List UnwrapRow) (Hu : Int)
    (hU : latestUnwrapHeight storeU = some Hu) (hUne : Hu ≠ 0)
    (hnewU : ∀ r ∈ newU, Hu < r.registrationMomentumHeight)
    (holdU : ∀ r ∈ oldU, r.registrationMomentumHeight ≤ Hu) (holdUne : oldU ≠ [])
    (fuel : Nat) (hfW : newW.length / P + 1 ≤ fuel) (hfU : newU.length / P + 1 ≤ fuel) :
    (syncNewWrapRequests (pagesOf P (newW ++ oldW)) noFail fuel storeW).2 =
      newW.length / P + 1 ∧
    (syncNewUnwrapRequests (pagesOf P (newU ++ oldU)) noFail fuel storeU).2 =
      newU.length / P + 1 := by
  constructor
  · unfold syncNewWrapRequests
    rw [hW]
    exact syncNewLoop_count P hP _ _ Hw hWne oldW holdW holdWne fuel newW hnewW hfW storeW
  · unfold syncNewUnwrapRequests
    rw [hU]
    exact syncNewLoop_count P hP _ _ Hu hUne oldU holdU holdUne fuel newU hnewU hfU storeU

/-- Witness for C2 at a concrete input: page size 2, two new records followed
by one already-seen record; both loops fetch `2 / 2 + 1 = 2` pages. -/
theorem incremental_sync_fetch_count_witness :
    (syncNewWrapRequests
      (pagesOf 2 [sampleWrapRecord "x" 3 0, sampleWrapRecord "y" 2 0,
        sampleWrapRecord "b" 1 0]) noFail 2 [sampleWrapRow "b" 1 0]).2 = 2 ∧
    (syncNewUnwrapRequests
      (pagesOf 2 [sampleUnwrapRecord "x" 0 3 0 0 1, sampleUnwrapRecord "y" 0 2 0 0 1,
        sampleUnwrapRecord "b" 0 1 1 0 0]) noFail 2
      [sampleUnwrapRow "b" 0 1 true false 0]).2 = 2 :=
  incremental_sync_fetch_count 2 (by decide)
    [sampleWrapRecord "x" 3 0, sampleWrapRecord "y" 2 0] [sampleWrapRecord "b" 1 0]
    [sampleWrapRow "b" 1 0] 1 (by decide) (by decide)
    (by intro r hr; rw [List.mem_cons, List.mem_singleton] at hr
        rcases hr with h | h <;> (subst h; decide))
    (by intro r hr; rw [List.mem_singleton] at hr; subst hr; decide)
    (by decide)
    [sampleUnwrapRecord "x" 0 3 0 0 1, sampleUnwrapRecord "y" 0 2 0 0 1]
    [sampleUnwrapRecord "b" 0 1 1 0 0]
    [sampleUnwrapRow "b" 0 1 true false 0] 1 (by decide) (by decide)
    (by intro r hr; rw [List.mem_cons, List.mem_singleton] at hr
        rcases hr with h | h <;> (subst h; decide))
    (by intro r hr; rw [List.mem_singleton] at hr; subst hr; decide)
    (by decide)
    2 (by decide) (by decide)

/-- C2 counterexample: one new record, page size 2, already-seen records
following.  The claim's reading "minimum fetches to retrieve the N new
records plus exactly one confirming page" demands `⌈1 / 2⌉ + 1 = 2` fetches,
but the loop performs one: the first page already yields fewer new records
(1) than it contains (2), so that page doubles as the confirming page. -/
theorem incremental_sync_confirm_page_cex :
    (syncNewWrapRequests (pagesOf 2 c2Listing) noFail 10 c2Store).2 = 1 ∧
    (syncNewWrapRequests (pagesOf 2 c2Listing) noFail 10 c2Store).2 ≠ 1 + 1 := by
  constructor
  · decide
  · decide

/-- Every key the pending loop observes is a pending key. -/
theorem observedPending_subset {R K : Type} [DecidableEq K]
    (remote : Nat → List R) (keyOf : R → K) (pending : Finset K) :
    ∀ j, observedPending remote keyOf pending j ⊆ pending := by
  intro j
  induction j with
  | zero => simp [observedPending]
  | succ n ih =>
    simp only [observedPending]
    refine Finset.union_subset ih ?_
    intro x hx
    rw [List.mem_toFinset] at hx
    obtain ⟨r, hr, rfl⟩ := List.mem_map.mp hx
    rw [List.mem_filter] at hr
    exact of_decide_eq_true hr.2

/-- Core characterization of the pending paging loop: started at page `page`
with the keys observed in pages `0..page-1` as `checked`, and `k` the first
page index at which a stop condition holds, the loop performs exactly
`k - page + 1` further page fetches, and logs the ceiling warning exactly
when the stop happens at page 100 with a nonempty page. -/
theorem updatePendingLoop_spec {R K S : Type} [DecidableEq K]
    (remote : Nat → List R) (keyOf : R → K) (upsert : S → List R → S)
    (pending : Finset K) (hpend : pending.Nonempty)
    (k : Nat) (hk : pendingStopCond remote keyOf pending k)
    (hmin : ∀ j < k, ¬ pendingStopCond remote keyOf pending j) :
    ∀ fuel page, page ≤ k → 101 - page < fuel → ∀ store : S,
      (updatePendingLoop remote noFail keyOf upsert pending fuel page
        (observedPending remote keyOf pending page) store).2.1 = k - page + 1 ∧
      (updatePendingLoop remote noFail keyOf upsert pending fuel page
        (observedPending remote keyOf pending page) store).2.2 =
        (decide (k = 100) && !(remote 100).isEmpty) := by
  have hk100 : k ≤ 100 := by
    by_contra hgt
    exact hmin 100 (by omega) (Or.inr (Or.inr rfl))
  intro fuel
  induction fuel with
  | zero => intro page hpk hfuel store; exact absurd hfuel (by omega)
  | succ n ih =>
    intro page hpk hfuel store
    have hsub : observedPending remote keyOf pending page ⊆ pending :=
      observedPending_subset remote keyOf pending page
    have hne : observedPending remote keyOf pending page ≠ pending := by
      cases page with
      | zero =>
        simp only [observedPending]
        exact fun hcontra => hpend.ne_empty hcontra.symm
      | succ j =>
        have hj : ¬ pendingStopCond remote keyOf pending j := hmin j (by omega)
        intro hcontra
        exact hj (Or.inr (Or.inl hcontra))
    have hssub : observedPending remote keyOf pending page ⊂ pending :=
      Finset.ssubset_iff_subset_ne.mpr ⟨hsub, hne⟩
    have hobs : observedPending remote keyOf pending page ∪
        (((remote page).filter (fun r => decide (keyOf r ∈ pending))).map keyOf).toFinset =
        observedPending remote keyOf pending (page + 1) := by
      simp [observedPending]
    by_cases hrem : (remote page).isEmpty
    · have hkp : k = page := by
        by_contra hne'
        exact hmin page (by omega) (Or.inl (List.isEmpty_iff.mp hrem))
      subst hkp
      constructor
      · simp [updatePendingLoop, noFail, hssub, hrem]
      · by_cases h100 : k = 100
        · subst h100
          simp [updatePendingLoop, noFail, hssub, hrem]
        · simp [updatePendingLoop, noFail, hssub, hrem, h100]
    · by_cases hlast : page = 100
      · subst hlast
        have hkp : k = 100 := by omega
        subst hkp
        constructor
        · simp [updatePendingLoop, noFail, hssub, hrem]
        · simp [updatePendingLoop, noFail, hssub, hrem]
      · have hp100 : page < 100 := by omega
        have hlt : ¬ (page + 1 > 100) := by omega
        by_cases hcov : observedPending remote keyOf pending (page + 1) = pending
        · have hkp : k = page := by
            by_contra hne'
            exact hmin page (by omega) (Or.inr (Or.inl hcov))
          subst hkp
          obtain ⟨m, rfl⟩ : ∃ m, n = m + 1 := ⟨n - 1, by omega⟩
          have hnossub : ¬ (pending ⊂ pending) := by
            simp [Finset.ssubset_iff_subset_ne]
          have hne100 : k ≠ 100 := by omega
          constructor
          · simp [updatePendingLoop, noFail, hssub, hrem, hobs, hcov, hnossub, hlt]
          · simp [updatePendingLoop, noFail, hssub, hrem, hobs, hcov, hnossub, hlt,
              hne100]
        · have hpk' : page < k := by
            rcases Nat.lt_or_ge page k with h | h
            · exact h
            · exfalso
              have hpe : page = k := by omega
              subst hpe
              rcases hk with h1 | h2 | h3
              · rw [h1] at hrem; simp at hrem
              · exact hcov h2
              · exact hlast h3
          have hrec := ih (page + 1) (by omega) (by omega)
          have hcount : ∀ s : S,
              (updatePendingLoop remote noFail keyOf upsert pending n (page + 1)
                (observedPending remote keyOf pending (page + 1)) s).2.1 =
              k - (page + 1) + 1 := fun s => (hrec s).1
          have hwarn : ∀ s : S,
              (updatePendingLoop remote noFail keyOf upsert pending n (page + 1)
                (observedPending remote keyOf pending (page + 1)) s).2.2 =
              (decide (k = 100) && !(remote 100).isEmpty) := fun s => (hrec s).2
          constructor
          · simp [updatePendingLoop, noFail, hssub, hrem, hobs, hlt, hcount]
            omega
          · simp [updatePendingLoop, noFail, hssub, hrem, hobs, hlt, hwarn]

/-- The pending paging loop fetches at most `101 - page` pages (pages
`page..100`), whatever the remote returns and whichever fetches fail. -/
theorem updatePendingLoop_count_le {R K S : Type} [DecidableEq K]
    (remote : Nat → List R) (failAt : Nat → Bool) (keyOf : R → K)
    (upsert : S → List R → S) (pending : Finset K) :
    ∀ fuel page checked (store : S), page ≤ 100 →
      (updatePendingLoop remote failAt keyOf upsert pending fuel page checked
        store).2.1 ≤ 101 - page := by
  intro fuel
  induction fuel with
  | zero =>
    intro page checked store hp
    simp [updatePendingLoop]
  | succ n ih =>
    intro page checked store hp
    simp only [updatePendingLoop]
    split
    · split
      · simp
        omega
      · split
        · simp
          omega
        · split
          · simp
            omega
          · simp only [Prod.fst, Prod.snd]
            refine le_trans (Nat.add_le_add_right (ih (page + 1) _ _ (by omega)) 1)
              (by omega)
    · simp

/-- C3: the pending-refresh pass is skipped when no natural key is pending;
it never performs more than 101 page fetches whatever the remote does; and in
the failure-free run it pages from index 0 and stops exactly at the first
page index where a stop condition holds — full coverage of the pending keys,
an empty page, or the hard ceiling at page 100 — returning normally and
raising the warning flag exactly in the ceiling case (stop at page 100 with a
nonempty page).  Stated for the wrap pass and the unwrap pass. -/
theorem pending_refresh_termination
    (remoteW : Nat → List WrapRecord) (remoteU : Nat → List UnwrapRecord)
    (failW failU : Nat → Bool) (storeW : List WrapRow) (storeU : List UnwrapRow) :
    (pendingWrapIds storeW = ∅ →
      updatePendingWrapRequests remoteW failW storeW = (storeW, 0, false)) ∧
    (updatePendingWrapRequests remoteW failW storeW).2.1 ≤ 101 ∧
    (pendingWrapIds storeW ≠ ∅ →
      ∃ k, pendingStopCond remoteW (fun r => r.id) (pendingWrapIds storeW) k ∧
        (∀ j < k, ¬ pendingStopCond remoteW (fun r => r.id) (pendingWrapIds storeW) j) ∧
        (updatePendingWrapRequests remoteW noFail storeW).2.1 = k + 1 ∧
        (updatePendingWrapRequests remoteW noFail storeW).2.2 =
          (decide (k = 100) && !(remoteW 100).isEmpty)) ∧
    (pendingUnwrapKeys storeU = ∅ →
      updatePendingUnwrapRequests remoteU failU storeU = (storeU, 0, false)) ∧
    (updatePendingUnwrapRequests remoteU failU storeU).2.1 ≤ 101 ∧
    (pendingUnwrapKeys storeU ≠ ∅ →
      ∃ k, pendingStopCond remoteU (fun r => (r.transactionHash, r.logIndex))
          (pendingUnwrapKeys storeU) k ∧
        (∀ j < k, ¬ pendingStopCond remoteU (fun r => (r.transactionHash, r.logIndex))
          (pendingUnwrapKeys storeU) j) ∧
        (updatePendingUnwrapRequests remoteU noFail storeU).2.1 = k + 1 ∧
        (updatePendingUnwrapRequests remoteU noFail storeU).2.2 =
          (decide (k = 100) && !(remoteU 100).isEmpty)) := by
  refine ⟨?_, ?_, ?_, ?_, ?_, ?_⟩
  · intro h
    simp [updatePendingWrapRequests, h]
  · unfold updatePendingWrapRequests
    by_cases h : pendingWrapIds storeW = ∅
    · simp [h]
    · simp only [h, if_neg h]
      exact updatePendingLoop_count_le _ _ _ _ _ 102 0 ∅ storeW (by omega)
  · intro h
    have hpend : (pendingWrapIds storeW).Nonempty :=
      Finset.nonempty_iff_ne_empty.mpr h
    have hex : ∃ j, pendingStopCond remoteW (fun r => r.id) (pendingWrapIds storeW) j :=
      ⟨100, Or.inr (Or.inr rfl)⟩
    refine ⟨Nat.find hex, Nat.find_spec hex, fun j hj => Nat.find_min hex hj, ?_, ?_⟩
    · have hspec := (updatePendingLoop_spec remoteW (fun r => r.id) upsertWrapRequests
        (pendingWrapIds storeW) hpend (Nat.find hex) (Nat.find_spec hex)
        (fun j hj => Nat.find_min hex hj) 102 0 (Nat.zero_le _) (by omega) storeW).1
      unfold updatePendingWrapRequests
      rw [if_neg h]
      simpa [observedPending] using hspec
    · have hspec := (updatePendingLoop_spec remoteW (fun r => r.id) upsertWrapRequests
        (pendingWrapIds storeW) hpend (Nat.find hex) (Nat.find_spec hex)
        (fun j hj => Nat.find_min hex hj) 102 0 (Nat.zero_le _) (by omega) storeW).2
      unfold updatePendingWrapRequests
      rw [if_neg h]
      simpa [observedPending] using hspec
  · intro h
    simp [updatePendingUnwrapRequests, h]
  · unfold updatePendingUnwrapRequests
    by_cases h : pendingUnwrapKeys storeU = ∅
    · simp [h]
    · simp only [h, if_neg h]
      exact updatePendingLoop_count_le _ _ _ _ _ 102 0 ∅ storeU (by omega)
  · intro h
    have hpend : (pendingUnwrapKeys storeU).Nonempty :=
      Finset.nonempty_iff_ne_empty.mpr h
    have hex : ∃ j, pendingStopCond remoteU (fun r => (r.transactionHash, r.logIndex))
        (pendingUnwrapKeys storeU) j := ⟨100, Or.inr (Or.inr rfl)⟩
    refine ⟨Nat.find hex, Nat.find_spec hex, fun j hj => Nat.find_min hex hj, ?_, ?_⟩
    · have hspec := (updatePendingLoop_spec remoteU
        (fun r => (r.transactionHash, r.logIndex)) upsertUnwrapRequests
        (pendingUnwrapKeys storeU) hpend (Nat.find hex) (Nat.find_spec hex)
        (fun j hj => Nat.find_min hex hj) 102 0 (Nat.zero_le _) (by omega) storeU).1
      unfold updatePendingUnwrapRequests
      rw [if_neg h]
      simpa [observedPending] using hspec
    · have hspec := (updatePendingLoop_spec remoteU
        (fun r => (r.transactionHash, r.logIndex)) upsertUnwrapRequests
        (pendingUnwrapKeys storeU) hpend (Nat.find hex) (Nat.find_spec hex)
        (fun j hj => Nat.find_min hex hj) 102 0 (Nat.zero_le _) (by omega) storeU).2
      unfold updatePendingUnwrapRequests
      rw [if_neg h]
      simpa [observedPending] using hspec

/-- Witness for C3 at concrete inputs: an empty store skips the pass
entirely, and a store with one pending wrap stays within the 101-fetch
bound. -/
theorem pending_refresh_termination_witness :
    updatePendingWrapRequests (fun _ => []) noFail [] = ([], 0, false) ∧
    (updatePendingWrapRequests (fun _ => []) noFail [sampleWrapRow "p" 5 1]).2.1 ≤ 101 ∧
    updatePendingUnwrapRequests (fun _ => []) noFail [] = ([], 0, false) := by
  have h := pending_refresh_termination (fun _ => []) (fun _ => []) noFail noFail
    [sampleWrapRow "p" 5 1] []
  have hskipW := (pending_refresh_termination (fun _ => []) (fun _ => []) noFail noFail
    [] []).1 (by decide)
  exact ⟨hskipW, h.2.1, (h.2.2.2.1) (by decide)⟩

/-- Filtering a mapped list counts the same elements as filtering the
original through the composition. -/
theorem length_filter_map {A B : Type} (f : A → B) (p : B → Bool) (l : List A) :
    ((l.map f).filter p).length = (l.filter (fun a => p (f a))).length := by
  induction l with
  | nil => rfl
  | cons a t ih =>
    by_cases h : p (f a) <;> simp [h, ih]

/-- A conflict-driven update leaves the lookup of every other key unchanged. -/
theorem findByKey_map_update_ne {Row K : Type} [DecidableEq K] (key : Row → K)
    (upd : Row → Row → Row) (hkey : ∀ row v, key (upd row v) = key row)
    (v : Row) (k : K) (hne : k ≠ key v) :
    ∀ store : List Row,
      findByKey key k (store.map (fun r => if key r = key v then upd r v else r)) =
      findByKey key k store := by
  intro store
  induction store with
  | nil => rfl
  | cons a l ih =>
    simp only [List.map_cons]
    unfold findByKey at ih ⊢
    by_cases ha : key a = key v
    · rw [if_pos ha]
      rw [List.find?_cons_of_neg, List.find?_cons_of_neg]
      · exact ih
      · simp only [decide_eq_true_eq]
        rw [ha]
        exact fun hc => hne hc.symm
      · simp only [decide_eq_true_eq]
        rw [hkey, ha]
        exact fun hc => hne hc.symm
    · rw [if_neg ha]
      by_cases hak : key a = k
      · rw [List.find?_cons_of_pos, List.find?_cons_of_pos] <;> simp [hak]
      · rw [List.find?_cons_of_neg, List.find?_cons_of_neg]
        · exact ih
        · simp [hak]
        · simp [hak]

/-- A conflict-driven update rewrites the looked-up row for the incoming key
to the mutable-field update of the stored row. -/
theorem findByKey_map_update_eq {Row K : Type} [DecidableEq K] (key : Row → K)
    (upd : Row → Row → Row) (hkey : ∀ row v, key (upd row v) = key row)
    (v : Row) :
    ∀ (store : List Row) row, findByKey key (key v) store = some row →
      findByKey key (key v)
        (store.map (fun r => if key r = key v then upd r v else r)) =
      some (upd row v) := by
  intro store
  induction store with
  | nil => intro row h; simp [findByKey] at h
  | cons a l ih =>
    intro row h
    unfold findByKey at h ⊢
    by_cases ha : key a = key v
    · rw [List.find?_cons_of_pos _ (by simp [ha])] at h
      injection h with h
      subst h
      simp only [List.map_cons, if_pos ha]
      rw [List.find?_cons_of_pos _ (by simp [hkey, ha])]
    · rw [List.find?_cons_of_neg _ (by simp [ha])] at h
      simp only [List.map_cons, if_neg ha]
      rw [List.find?_cons_of_neg _ (by simp [ha])]
      exact ih row h

/-- Appending a row with a different key leaves a lookup unchanged. -/
theorem findByKey_append_single_ne {Row K : Type} [DecidableEq K]
    (key : Row → K) (v : Row) (k : K) (hne : k ≠ key v) :
    ∀ store : List Row, findByKey key k (store ++ [v]) = findByKey key k store := by
  intro store
  induction store with
  | nil =>
    unfold findByKey
    rw [List.nil_append]
    rw [List.find?_cons_of_neg _ (by
      simp only [decide_eq_true_eq]
      exact fun hc => hne hc.symm)]
  | cons a l ih =>
    unfold findByKey at ih ⊢
    rw [List.cons_append]
    by_cases hak : key a = k
    · rw [List.find?_cons_of_pos _ (by simp [hak]),
        List.find?_cons_of_pos _ (by simp [hak])]
    · rw [List.find?_cons_of_neg _ (by simp [hak]),
        List.find?_cons_of_neg _ (by simp [hak])]
      exact ih

/-- A one-row upsert leaves the lookup of every other key unchanged. -/
theorem findByKey_upsertOne_ne {Row K : Type} [DecidableEq K] (key : Row → K)
    (upd : Row → Row → Row) (hkey : ∀ row v, key (upd row v) = key row)
    (store : List Row) (v : Row) (k : K) (hne : k ≠ key v) :
    findByKey key k (upsertOne key upd store v) = findByKey key k store := by
  unfold upsertOne
  by_cases hany : store.any (fun row => decide (key row = key v))
  · rw [if_pos hany]
    exact findByKey_map_update_ne key upd hkey v k hne store
  · rw [if_neg hany]
    exact findByKey_append_single_ne key v k hne store

/-- A one-row upsert on a stored key rewrites the looked-up row to the
mutable-field update of the stored row. -/
theorem findByKey_upsertOne_eq {Row K : Type} [DecidableEq K] (key : Row → K)
    (upd : Row → Row → Row) (hkey : ∀ row v, key (upd row v) = key row)
    (store : List Row) (v row : Row)
    (hrow : findByKey key (key v) store = some row) :
    findByKey key (key v) (upsertOne key upd store v) = some (upd row v) := by
  unfold upsertOne
  unfold findByKey at hrow
  have hany : store.any (fun r => decide (key r = key v)) := by
    rw [List.any_eq_true]
    have hp := List.find?_some hrow
    have hm := List.mem_of_find?_eq_some hrow
    exact ⟨row, hm, hp⟩
  rw [if_pos hany]
  exact findByKey_map_update_eq key upd hkey v store row hrow

/-- A one-row upsert keeps the row count on conflict and adds one row
otherwise. -/
theorem upsertOne_length {Row K : Type} [DecidableEq K] (key : Row → K)
    (upd : Row → Row → Row) (store : List Row) (v : Row) :
    (upsertOne key upd store v).length =
      if (findByKey key (key v) store).isSome then store.length
      else store.length + 1 := by
  unfold upsertOne
  by_cases hany : store.any (fun row => decide (key row = key v))
  · rw [if_pos hany, if_pos, List.length_map]
    rw [List.any_eq_true] at hany
    obtain ⟨x, hx, hpx⟩ := hany
    unfold findByKey
    rw [List.find?_isSome]
    exact ⟨x, hx, hpx⟩
  · rw [if_neg hany, if_neg, List.length_append, List.length_singleton]
    intro hsome
    unfold findByKey at hsome
    rw [List.find?_isSome] at hsome
    exact hany (List.any_eq_true.mpr hsome)

/-- A batch whose keys all differ from `k` never touches the row at `k`. -/
theorem findByKey_upsertFold_notmem {Row K : Type} [DecidableEq K]
    (key : Row → K) (upd : Row → Row → Row)
    (hkey : ∀ row v, key (upd row v) = key row) (k : K) :
    ∀ (vs : List Row) (store : List Row), (∀ v ∈ vs, key v ≠ k) →
      findByKey key k (vs.foldl (upsertOne key upd) store) =
      findByKey key k store := by
  intro vs
  induction vs with
  | nil => intro store _; rfl
  | cons v rest ih =>
    intro store h
    rw [List.foldl_cons]
    rw [ih _ (fun w hw => h w (List.mem_cons_of_mem v hw))]
    exact findByKey_upsertOne_ne key upd hkey store v k
      (fun hc => h v (List.mem_cons_self v rest) hc.symm)

/-- Frame property of the set-based upsert over a batch with pairwise
distinct keys: every record whose key is stored rewrites exactly the mutable
fields of its row, and the row count grows by exactly the number of
genuinely new keys. -/
theorem upsertFold_frame {Row K : Type} [DecidableEq K] (key : Row → K)
    (upd : Row → Row → Row) (hkey : ∀ row v, key (upd row v) = key row) :
    ∀ (vs : List Row) (store : List Row), (vs.map key).Nodup →
      (∀ v ∈ vs, ∀ row, findByKey key (key v) store = some row →
        findByKey key (key v) (vs.foldl (upsertOne key upd) store) =
          some (upd row v)) ∧
      (vs.foldl (upsertOne key upd) store).length =
        store.length +
          (vs.filter (fun v => !(findByKey key (key v) store).isSome)).length := by
  intro vs
  induction vs with
  | nil =>
    intro store _
    exact ⟨fun v hv => absurd hv (List.not_mem_nil v), by simp⟩
  | cons v rest ih =>
    intro store hnd
    rw [List.map_cons, List.nodup_cons] at hnd
    have hdiff : ∀ w ∈ rest, key w ≠ key v :=
      fun w hw hc => hnd.1 (hc ▸ List.mem_map_of_mem key hw)
    obtain ⟨ihf, ihl⟩ := ih (upsertOne key upd store v) hnd.2
    constructor
    · intro w hw row hrow
      rcases List.mem_cons.mp hw with rfl | hw'
      · rw [List.foldl_cons]
        rw [findByKey_upsertFold_notmem key upd hkey (key w) rest _
          (fun u hu => hdiff u hu)]
        exact findByKey_upsertOne_eq key upd hkey store w row hrow
      · rw [List.foldl_cons]
        apply ihf w hw' row
        rw [findByKey_upsertOne_ne key upd hkey store v (key w) (hdiff w hw')]
        exact hrow
    · rw [List.foldl_cons, ihl, upsertOne_length, List.filter_cons]
      have hcong : rest.filter
          (fun w => !(findByKey key (key w) (upsertOne key upd store v)).isSome) =
          rest.filter (fun w => !(findByKey key (key w) store).isSome) :=
        List.filter_congr (fun w hw => by
          rw [findByKey_upsertOne_ne key upd hkey store v (key w) (hdiff w hw)])
      rw [hcong]
      by_cases hv : (findByKey key (key v) store).isSome
      · rw [if_pos hv]
        simp [hv]
      · rw [if_neg hv]
        simp only [Bool.not_eq_true] at hv
        simp [hv]
        omega

/-- C4: on a batch with pairwise distinct natural keys, every record whose
key already exists in the store overwrites only the designated mutable fields
of its row (`confirmations_to_finality` for wraps; `redeemed`, `revoked`,
`redeemable_in` for unwraps) — the looked-up row afterwards is the old row
with exactly those fields replaced — and the row count grows by exactly the
number of genuinely new keys, so no additional row is created for any
conflicting record. -/
theorem upsert_conflict_frame
    (storeW : List WrapRow) (batchW : List WrapRecord)
    (hndW : (batchW.map (fun r => r.id)).Nodup)
    (storeU : List UnwrapRow) (batchU : List UnwrapRecord)
    (hndU : (batchU.map (fun r => (r.transactionHash, r.logIndex))).Nodup) :
    (∀ rec ∈ batchW, ∀ row,
      findByKey (fun row => row.requestId) rec.id storeW = some row →
      findByKey (fun row => row.requestId) rec.id (upsertWrapRequests storeW batchW) =
        some { row with confirmationsToFinality := rec.confirmationsToFinality }) ∧
    (upsertWrapRequests storeW batchW).length =
      storeW.length + (batchW.filter (fun rec =>
        !(findByKey (fun row => row.requestId) rec.id storeW).isSome)).length ∧
    (∀ rec ∈ batchU, ∀ row,
      findByKey (fun row => (row.transactionHash, row.logIndex))
        (rec.transactionHash, rec.logIndex) storeU = some row →
      findByKey (fun row => (row.transactionHash, row.logIndex))
        (rec.transactionHash, rec.logIndex) (upsertUnwrapRequests storeU batchU) =
        some { row with
          redeemed := rec.redeemed = 1
          revoked := rec.revoked = 1
          redeemableIn := rec.redeemableIn }) ∧
    (upsertUnwrapRequests storeU batchU).length =
      storeU.length + (batchU.filter (fun rec =>
        !(findByKey (fun row => (row.transactionHash, row.logIndex))
          (rec.transactionHash, rec.logIndex) storeU).isSome)).length := by
  have hkeyW : ∀ (row v : WrapRow),
      (fun row => row.requestId)
        ({ row with confirmationsToFinality := v.confirmationsToFinality } : WrapRow) =
      row.requestId := fun _ _ => rfl
  have hW := upsertFold_frame (fun (row : WrapRow) => row.requestId)
    (fun row v => { row with confirmationsToFinality := v.confirmationsToFinality })
    (fun _ _ => rfl) (batchW.map wrapRowOfRecord) storeW
    (by simpa [List.map_map, Function.comp] using hndW)
  have hU := upsertFold_frame
    (fun (row : UnwrapRow) => (row.transactionHash, row.logIndex))
    (fun row v => { row with
      redeemed := v.redeemed
      revoked := v.revoked
      redeemableIn := v.redeemableIn })
    (fun _ _ => rfl) (batchU.map unwrapRowOfRecord) storeU
    (by simpa [List.map_map, Function.comp] using hndU)
  refine ⟨?_, ?_, ?_, ?_⟩
  · intro rec hrec row hrow
    exact hW.1 (wrapRowOfRecord rec) (List.mem_map_of_mem wrapRowOfRecord hrec)
      row hrow
  · rw [show upsertWrapRequests storeW batchW =
      (batchW.map wrapRowOfRecord).foldl
        (upsertOne (fun row => row.requestId)
          (fun row v => { row with confirmationsToFinality := v.confirmationsToFinality }))
        storeW from rfl, hW.2]
    congr 1
    exact length_filter_map wrapRowOfRecord _ batchW
  · intro rec hrec row hrow
    exact hU.1 (unwrapRowOfRecord rec) (List.mem_map_of_mem unwrapRowOfRecord hrec)
      row hrow
  · rw [show upsertUnwrapRequests storeU batchU =
      (batchU.map unwrapRowOfRecord).foldl
        (upsertOne (fun row => (row.transactionHash, row.logIndex))
          (fun row v => { row with
            redeemed := v.redeemed
            revoked := v.revoked
            redeemableIn := v.redeemableIn }))
        storeU from rfl, hU.2]
    congr 1
    exact length_filter_map unwrapRowOfRecord _ batchU

/-- Witness for C4 at a concrete input: a one-record batch hitting a stored
row updates the mutable fields in place and keeps the row count at one. -/
theorem upsert_conflict_frame_witness :
    findByKey (fun row => row.requestId) "a"
      (upsertWrapRequests [sampleWrapRow "a" 5 7] [sampleWrapRecord "a" 5 2]) =
      some (sampleWrapRow "a" 5 2) ∧
    (upsertWrapRequests [sampleWrapRow "a" 5 7] [sampleWrapRecord "a" 5 2]).length = 1 ∧
    findByKey (fun row => (row.transactionHash, row.logIndex)) ("t", 1)
      (upsertUnwrapRequests [sampleUnwrapRow "t" 1 5 false false 4]
        [sampleUnwrapRecord "t" 1 5 1 0 0]) =
      some (sampleUnwrapRow "t" 1 5 true false 0) := by
  have h := upsert_conflict_frame [sampleWrapRow "a" 5 7] [sampleWrapRecord "a" 5 2]
    (by decide) [sampleUnwrapRow "t" 1 5 false false 4] [sampleUnwrapRecord "t" 1 5 1 0 0]
    (by decide)
  refine ⟨?_, ?_, ?_⟩
  · have h1 := h.1 (sampleWrapRecord "a" 5 2) (List.mem_singleton.mpr rfl)
      (sampleWrapRow "a" 5 7) (by decide)
    exact h1.trans (by decide)
  · exact h.2.1.trans (by decide)
  · have h3 := h.2.2.1 (sampleUnwrapRecord "t" 1 5 1 0 0) (List.mem_singleton.mpr rfl)
      (sampleUnwrapRow "t" 1 5 false false 4) (by decide)
    exact h3.trans (by decide)

/-- A one-row upsert preserves any per-key row property `Q`, provided the
incoming row satisfies it for that key (for the insert path) and so does any
conflict-update it produces (for the overwrite path), and updates keep the
key unchanged. -/
theorem upsertOne_key_invariant {Row K : Type} [DecidableEq K] (key : Row → K)
    (upd : Row → Row → Row) (k₀ : K) (Q : Row → Prop) (v : Row)
    (hkeep : ∀ row, key (upd row v) = key row)
    (hv : key v = k₀ → Q v ∧ ∀ row, Q (upd row v))
    (store : List Row) (hstore : ∀ row ∈ store, key row = k₀ → Q row) :
    ∀ row ∈ upsertOne key upd store v, key row = k₀ → Q row := by
  unfold upsertOne
  by_cases hany : store.any (fun row => decide (key row = key v))
  · rw [if_pos hany]
    intro row hrow hk
    obtain ⟨row₀, hrow₀, rfl⟩ := List.mem_map.mp hrow
    by_cases h : key row₀ = key v
    · rw [if_pos h] at hk ⊢
      rw [hkeep row₀] at hk
      exact (hv (by rw [← h, hk])).2 row₀
    · rw [if_neg h] at hk ⊢
      exact hstore row₀ hrow₀ hk
  · rw [if_neg hany]
    intro row hrow hk
    rcases List.mem_append.mp hrow with hmem | hmem
    · exact hstore row hmem hk
    · rw [List.mem_singleton.mp hmem] at hk ⊢
      exact (hv hk).1
/-- Folding a batch of one-row upserts preserves any per-key row property
`Q` when every batch row with that key satisfies it and produces updates
satisfying it. -/
theorem upsertFold_key_invariant {Row K : Type} [DecidableEq K] (key : Row → K)
    (upd : Row → Row → Row) (k₀ : K) (Q : Row → Prop)
    (hkeep : ∀ row v, key (upd row v) = key row) :
    ∀ (vs : List Row) (store : List Row),
      (∀ v ∈ vs, key v = k₀ → Q v ∧ ∀ row, Q (upd row v)) →
      (∀ row ∈ store, key row = k₀ → Q row) →
      ∀ row ∈ vs.foldl (upsertOne key upd) store, key row = k₀ → Q row := by
  intro vs
  induction vs with
  | nil => intro store _ hstore; exact hstore
  | cons v rest ih =>
    intro store hvs hstore
    rw [List.foldl_cons]
    exact ih (upsertOne key upd store v)
      (fun w hw => hvs w (List.mem_cons_of_mem v hw))
      (upsertOne_key_invariant key upd k₀ Q v (fun row => hkeep row v)
        (hvs v (List.mem_cons_self v rest)) store hstore)

/-- C5 (amended: the upserts overwrite the mutable fields with whatever the
remote reports, enforcing no monotonicity; the stored fields are monotone
provided the remote's reports for each stored key do not regress them).  If
every batch record targeting the stored wrap `row₀` reports
`confirmations_to_finality ≤` the stored value, every row at that key after
the upsert still satisfies the bound; likewise an unwrap's `redeemed` and
`revoked` never fall back from `true` and `redeemable_in` does not increase
while the stored countdown is still positive. -/
theorem upsert_monotone_mutable
    (storeW : List WrapRow) (batchW : List WrapRecord) (rowW : WrapRow)
    (hmemW : rowW ∈ storeW)
    (hndW : (storeW.map (fun row => row.requestId)).Nodup)
    (hinW : ∀ rec ∈ batchW, rec.id = rowW.requestId →
      rec.confirmationsToFinality ≤ rowW.confirmationsToFinality)
    (storeU : List UnwrapRow) (batchU : List UnwrapRecord) (rowU : UnwrapRow)
    (hmemU : rowU ∈ storeU)
    (hndU : (storeU.map (fun row => (row.transactionHash, row.logIndex))).Nodup)
    (hinU : ∀ rec ∈ batchU,
      (rec.transactionHash, rec.logIndex) = (rowU.transactionHash, rowU.logIndex) →
      (rowU.redeemed = true → rec.redeemed = 1) ∧
      (rowU.revoked = true → rec.revoked = 1) ∧
      (0 < rowU.redeemableIn → rec.redeemableIn ≤ rowU.redeemableIn)) :
    (∀ row ∈ upsertWrapRequests storeW batchW, row.requestId = rowW.requestId →
      row.confirmationsToFinality ≤ rowW.confirmationsToFinality) ∧
    (∀ row ∈ upsertUnwrapRequests storeU batchU,
      (row.transactionHash, row.logIndex) = (rowU.transactionHash, rowU.logIndex) →
      (rowU.redeemed = true → row.redeemed = true) ∧
      (rowU.revoked = true → row.revoked = true) ∧
      (0 < rowU.redeemableIn → row.redeemableIn ≤ rowU.redeemableIn)) := by
  constructor
  · refine upsertFold_key_invariant (fun row => row.requestId)
      (fun row v => { row with confirmationsToFinality := v.confirmationsToFinality })
      rowW.requestId
      (fun row => row.confirmationsToFinality ≤ rowW.confirmationsToFinality)
      (fun _ _ => rfl) (batchW.map wrapRowOfRecord) storeW ?_ ?_
    · intro v hv hk
      obtain ⟨rec, hrec, rfl⟩ := List.mem_map.mp hv
      have hle := hinW rec hrec hk
      exact ⟨hle, fun row => hle⟩
    · intro row hrow hk
      have : row = rowW :=
        List.inj_on_of_nodup_map hndW hrow hmemW hk
      rw [this]
  · refine upsertFold_key_invariant
      (fun row => (row.transactionHash, row.logIndex))
      (fun row v => { row with
        redeemed := v.redeemed
        revoked := v.revoked
        redeemableIn := v.redeemableIn })
      (rowU.transactionHash, rowU.logIndex)
      (fun row => (rowU.redeemed = true → row.redeemed = true) ∧
        (rowU.revoked = true → row.revoked = true) ∧
        (0 < rowU.redeemableIn → row.redeemableIn ≤ rowU.redeemableIn))
      (fun _ _ => rfl) (batchU.map unwrapRowOfRecord) storeU ?_ ?_
    · intro v hv hk
      obtain ⟨rec, hrec, rfl⟩ := List.mem_map.mp hv
      have hrec' := hinU rec hrec hk
      refine ⟨⟨?_, ?_, hrec'.2.2⟩, fun row => ⟨?_, ?_, hrec'.2.2⟩⟩
      · intro hred
        simp [unwrapRowOfRecord, hrec'.1 hred]
      · intro hrev
        simp [unwrapRowOfRecord, hrec'.2.1 hrev]
      · intro hred
        simp [unwrapRowOfRecord, hrec'.1 hred]
      · intro hrev
        simp [unwrapRowOfRecord, hrec'.2.1 hrev]
    · intro row hrow hk
      have : row = rowU :=
        List.inj_on_of_nodup_map hndU hrow hmemU hk
      rw [this]
      exact ⟨fun h => h, fun h => h, fun _ => le_refl _⟩

/-- Witness for C5 at a concrete input: a pending wrap at confirmations 3
re-reported at 2 stays at most 3; a pending unwrap re-reported as redeemed
keeps its flags monotone. -/
theorem upsert_monotone_mutable_witness :
    (∀ row ∈ upsertWrapRequests [sampleWrapRow "a" 5 3] [sampleWrapRecord "a" 5 2],
      row.requestId = (sampleWrapRow "a" 5 3).requestId →
      row.confirmationsToFinality ≤ (sampleWrapRow "a" 5 3).confirmationsToFinality) ∧
    (∀ row ∈ upsertUnwrapRequests [sampleUnwrapRow "t" 1 5 false false 2]
        [sampleUnwrapRecord "t" 1 5 1 0 0],
      (row.transactionHash, row.logIndex) = ("t", (1 : Int)) →
      ((sampleUnwrapRow "t" 1 5 false false 2).redeemed = true → row.redeemed = true) ∧
      ((sampleUnwrapRow "t" 1 5 false false 2).revoked = true → row.revoked = true) ∧
      (0 < (sampleUnwrapRow "t" 1 5 false false 2).redeemableIn →
        row.redeemableIn ≤ (sampleUnwrapRow "t" 1 5 false false 2).redeemableIn)) :=
  upsert_monotone_mutable [sampleWrapRow "a" 5 3] [sampleWrapRecord "a" 5 2]
    (sampleWrapRow "a" 5 3) (List.mem_singleton.mpr rfl) (by decide)
    (by intro rec hrec h; rw [List.mem_singleton] at hrec; subst hrec; decide)
    [sampleUnwrapRow "t" 1 5 false false 2] [sampleUnwrapRecord "t" 1 5 1 0 0]
    (sampleUnwrapRow "t" 1 5 false false 2) (List.mem_singleton.mpr rfl) (by decide)
    (by intro rec hrec h; rw [List.mem_singleton] at hrec; subst hrec
        exact ⟨fun _ => rfl, by decide, by decide⟩)

/-- C5 counterexample: a pending-refresh pass over a stored wrap with
`confirmations_to_finality = 3` whose remote page reports the same record at
5 leaves the store at 5 — the stored mutable field increased, because the
upsert overwrites it with whatever the remote reports. -/
theorem upsert_monotone_mutable_cex :
    (updatePendingWrapRequests c5Remote noFail c5Store).1 =
      [sampleWrapRow "p" 10 5] ∧
    (sampleWrapRow "p" 10 3).confirmationsToFinality = 3 ∧
    ¬ (5 : Int) ≤ 3 := by
  refine ⟨?_, by decide, by decide⟩
  decide

/-- A caught exception while processing page `p` makes the incremental loop
behave exactly as if the listing ended at page `p`: the pages committed
before the failure stay committed and the pass returns normally. -/
theorem syncNewLoop_truncate {R S : Type} (remote : Nat → List R)
    (failAt : Nat → Bool) (heightOf : R → Int) (upsert : S → List R → S)
    (latest : Option Int) (p : Nat) (hp : failAt p = true)
    (hbefore : ∀ q < p, failAt q = false) :
    ∀ fuel page, page ≤ p → ∀ store : S,
      syncNewLoop remote failAt heightOf upsert latest fuel page store =
      syncNewLoop (truncatePages remote p) noFail heightOf upsert latest fuel
        page store := by
  intro fuel
  induction fuel with
  | zero => intro page _ store; rfl
  | succ n ih =>
    intro page hpage store
    by_cases hpp : page = p
    · subst hpp
      simp [syncNewLoop, noFail, hp, truncatePages]
    · have hlt : page < p := by omega
      have hrem : truncatePages remote p page = remote page := by
        simp [truncatePages, hlt]
      simp only [syncNewLoop, noFail, hbefore page hlt, hrem,
        ih (page + 1) (by omega)]

/-- A caught exception while processing page `p` makes the pending loop
behave exactly as if the listing ended at page `p`. -/
theorem updatePendingLoop_truncate {R K S : Type} [DecidableEq K]
    (remote : Nat → List R) (failAt : Nat → Bool) (keyOf : R → K)
    (upsert : S → List R → S) (pending : Finset K) (p : Nat)
    (hp : failAt p = true) (hbefore : ∀ q < p, failAt q = false) :
    ∀ fuel page, page ≤ p → ∀ checked (store : S),
      updatePendingLoop remote failAt keyOf upsert pending fuel page checked store =
      updatePendingLoop (truncatePages remote p) noFail keyOf upsert pending fuel
        page checked store := by
  intro fuel
  induction fuel with
  | zero => intro page _ checked store; rfl
  | succ n ih =>
    intro page hpage checked store
    by_cases hsub : checked ⊂ pending
    · by_cases hpp : page = p
      · subst hpp
        simp [updatePendingLoop, noFail, hsub, hp, truncatePages]
      · have hlt : page < p := by omega
        have hrem : truncatePages remote p page = remote page := by
          simp [truncatePages, hlt]
        simp only [updatePendingLoop, noFail, hsub, if_pos hsub,
          hbefore page hlt, hrem, ih (page + 1) (by omega)]
    · simp [updatePendingLoop, hsub]

/-- A re-raised exception while processing page `p` of a full sync leaves
exactly the pages committed before the failure in the store (the raised
flag differs, but the store equals the failure-free run over the truncated
listing). -/
theorem fullSyncLoop_truncate_fst {R S : Type} (remote : Nat → List R)
    (failAt : Nat → Bool) (upsert : S → List R → S) (total : Nat) (p : Nat)
    (hp : failAt p = true) (hbefore : ∀ q < p, failAt q = false) :
    ∀ fuel page synced, page ≤ p → ∀ store : S,
      (fullSyncLoop remote failAt upsert total fuel page synced store).1 =
      (fullSyncLoop (truncatePages remote p) noFail upsert total fuel page
        synced store).1 := by
  intro fuel
  induction fuel with
  | zero => intro page synced _ store; rfl
  | succ n ih =>
    intro page synced hpage store
    by_cases htot : synced < total
    · by_cases hpp : page = p
      · subst hpp
        simp [fullSyncLoop, noFail, htot, hp, truncatePages]
      · have hlt : page < p := by omega
        have hrem : truncatePages remote p page = remote page := by
          simp [truncatePages, hlt]
        simp only [fullSyncLoop, noFail, htot, if_pos htot, hbefore page hlt,
          hrem]
        by_cases hre : (remote page).isEmpty
        · simp [hre]
        · simp [hre]
          exact ih (page + 1) (synced + (remote page).length) (by omega) _
    · simp [fullSyncLoop, htot]

/-- A crashing `initial_sync` never sets the readiness flag: the flag is
written only after both full syncs return. -/
theorem initialSync_crash_flag (boot : BootEnv) (st : CollectorState)
    (h : (initialSync boot st).2 = true) :
    (initialSync boot st).1.syncComplete = st.syncComplete := by
  unfold initialSync at h ⊢
  by_cases hempty : st.wraps.length = 0 ∧ st.unwraps.length = 0
  · rw [if_pos hempty] at h ⊢
    by_cases hw : (fullSyncWrapRequests boot.wrapPages boot.wrapFailAt
        boot.wrapTotal st.wraps).2
    · simp [hw]
    · simp only [hw] at h ⊢
      by_cases hu : (fullSyncUnwrapRequests boot.unwrapPages boot.unwrapFailAt
          boot.unwrapTotal st.unwraps).2
      · simp [hu]
      · simp [hu] at h
  · rw [if_neg hempty] at h
    simp at h

/-- C6 (amended: an exception during an incremental tick or pending-refresh
pass aborts only that pass — committed pages remain, the worker keeps running
and the next tick recomputes its cursors from the store — but an exception
during a bootstrap full sync propagates out of `initial_sync`: the worker
process exits non-zero with the readiness flag unset, though the pages
committed before the failure remain committed). -/
theorem sync_failure_semantics :
    (∀ (remote : Nat → List WrapRecord) (failAt : Nat → Bool) (p fuel : Nat)
      (store : List WrapRow), failAt p = true → (∀ q < p, failAt q = false) →
      syncNewWrapRequests remote failAt fuel store =
        syncNewWrapRequests (truncatePages remote p) noFail fuel store) ∧
    (∀ (remote : Nat → List UnwrapRecord) (failAt : Nat → Bool) (p fuel : Nat)
      (store : List UnwrapRow), failAt p = true → (∀ q < p, failAt q = false) →
      syncNewUnwrapRequests remote failAt fuel store =
        syncNewUnwrapRequests (truncatePages remote p) noFail fuel store) ∧
    (∀ (remote : Nat → List WrapRecord) (failAt : Nat → Bool) (p : Nat)
      (store : List WrapRow), failAt p = true → (∀ q < p, failAt q = false) →
      updatePendingWrapRequests remote failAt store =
        updatePendingWrapRequests (truncatePages remote p) noFail store) ∧
    (∀ (remote : Nat → List UnwrapRecord) (failAt : Nat → Bool) (p : Nat)
      (store : List UnwrapRow), failAt p = true → (∀ q < p, failAt q = false) →
      updatePendingUnwrapRequests remote failAt store =
        updatePendingUnwrapRequests (truncatePages remote p) noFail store) ∧
    (∀ (remote : Nat → List WrapRecord) (failAt : Nat → Bool) (p total : Nat)
      (store : List WrapRow), failAt p = true → (∀ q < p, failAt q = false) →
      (fullSyncWrapRequests remote failAt total store).1 =
        (fullSyncWrapRequests (truncatePages remote p) noFail total store).1) ∧
    (∀ (boot : BootEnv) (ticks : List TickEnv) (st st' : CollectorState),
      runWorker boot ticks st = .exited st' → st'.syncComplete = st.syncComplete) ∧
    (∀ (boot : BootEnv) (ticks : List TickEnv) (st : CollectorState),
      (initialSync boot st).2 = false →
      ∃ stFinal, runWorker boot ticks st = .running stFinal) := by
  refine ⟨?_, ?_, ?_, ?_, ?_, ?_, ?_⟩
  · intro remote failAt p fuel store hp hbefore
    exact syncNewLoop_truncate remote failAt _ _ _ p hp hbefore fuel 0
      (Nat.zero_le p) store
  · intro remote failAt p fuel store hp hbefore
    exact syncNewLoop_truncate remote failAt _ _ _ p hp hbefore fuel 0
      (Nat.zero_le p) store
  · intro remote failAt p store hp hbefore
    unfold updatePendingWrapRequests
    by_cases hpend : pendingWrapIds store = ∅
    · rw [if_pos hpend, if_pos hpend]
    · rw [if_neg hpend, if_neg hpend]
      exact updatePendingLoop_truncate remote failAt _ _ _ p hp hbefore 102 0
        (Nat.zero_le p) ∅ store
  · intro remote failAt p store hp hbefore
    unfold updatePendingUnwrapRequests
    by_cases hpend : pendingUnwrapKeys store = ∅
    · rw [if_pos hpend, if_pos hpend]
    · rw [if_neg hpend, if_neg hpend]
      exact updatePendingLoop_truncate remote failAt _ _ _ p hp hbefore 102 0
        (Nat.zero_le p) ∅ store
  · intro remote failAt p total store hp hbefore
    exact fullSyncLoop_truncate_fst remote failAt _ total p hp hbefore (total + 1)
      0 0 (Nat.zero_le p) store
  · intro boot ticks st st' h
    unfold runWorker at h
    rcases hinit : initialSync boot st with ⟨st1, b⟩
    rw [hinit] at h
    cases b with
    | false => exact absurd h (by simp)
    | true =>
      have hflag := initialSync_crash_flag boot st (by rw [hinit])
      rw [hinit] at hflag
      have hst : st1 = st' := by
        injection h
      rw [← hst]
      exact hflag
  · intro boot ticks st h
    unfold runWorker
    rcases hinit : initialSync boot st with ⟨st1, b⟩
    rw [hinit] at h
    simp only at h
    subst h
    exact ⟨_, rfl⟩

/-- Witness for C6 at concrete inputs: a tick whose first page fetch raises
equals the failure-free tick over the empty truncated listing, and the
concrete crashing bootstrap leaves the readiness flag as it was. -/
theorem sync_failure_semantics_witness :
    syncNewWrapRequests (fun _ => [sampleWrapRecord "a" 2 0]) (fun q => decide (q = 0))
      3 [sampleWrapRow "b" 1 0] =
    syncNewWrapRequests (truncatePages (fun _ => [sampleWrapRecord "a" 2 0]) 0) noFail
      3 [sampleWrapRow "b" 1 0] ∧
    emptyCollectorState.syncComplete = emptyCollectorState.syncComplete := by
  constructor
  · exact sync_failure_semantics.1 (fun _ => [sampleWrapRecord "a" 2 0])
      (fun q => decide (q = 0)) 0 3 [sampleWrapRow "b" 1 0] (by decide)
      (fun q hq => absurd hq (Nat.not_lt_zero q))
  · exact sync_failure_semantics.2.2.2.2.2.1 c6Boot [] emptyCollectorState
      emptyCollectorState (by decide)

/-- C6 counterexample: the remote reports one wrap record and the very first
bootstrap page fetch raises; the exception escapes `initial_sync`, so the
worker process exits non-zero (`bridge_worker.main` catches it and calls
`sys.exit(1)`) with the readiness flag still unset — the claim's "the process
does not crash, and the engine runs again at the next scheduled tick" fails
for the bootstrap pass. -/
theorem bootstrap_crash_cex :
    runWorker c6Boot [] emptyCollectorState =
      WorkerOutcome.exited emptyCollectorState ∧
    emptyCollectorState.syncComplete = false := by
  exact ⟨by decide, rfl⟩

/-- C7 (the sync gate, modelled from the spec where its definition is missing
from `src/src/dependencies.py`, composed with the routes from the source):
while the readiness flag is unset both ledger read endpoints answer with the
retry-later not-ready failure; `initial_sync` sets the flag exactly when it
returns without an escaped exception; once the flag is set the unwraps
endpoint serves data, but the wraps endpoint fails with `TypeError` instead
of serving data (the `confirmations_to_finality` keyword mismatch of C8). -/
theorem sync_gate_and_routes :
    (∀ (storeW : List WrapRow) (q : WrapsQuery),
      getWrapRequestsRoute false storeW q = .error .notReadyRetryLater) ∧
    (∀ (storeU : List UnwrapRow) (q : UnwrapsQuery),
      getUnwrapRequestsRoute false storeU q = .error .notReadyRetryLater) ∧
    (∀ (boot : BootEnv) (st : CollectorState), (initialSync boot st).2 = false →
      (initialSync boot st).1.syncComplete = true) ∧
    (∀ (boot : BootEnv) (st : CollectorState), (initialSync boot st).2 = true →
      (initialSync boot st).1.syncComplete = st.syncComplete) ∧
    (∀ (storeU : List UnwrapRow) (q : UnwrapsQuery),
      ∃ resp, getUnwrapRequestsRoute true storeU q = .ok resp) ∧
    (∀ (storeW : List WrapRow) (q : WrapsQuery),
      getWrapRequestsRoute true storeW q = .error .typeError) := by
  refine ⟨?_, ?_, ?_, ?_, ?_, ?_⟩
  · intro storeW q
    rfl
  · intro storeU q
    rfl
  · intro boot st h
    unfold initialSync at h ⊢
    by_cases hempty : st.wraps.length = 0 ∧ st.unwraps.length = 0
    · rw [if_pos hempty] at h ⊢
      by_cases hw : (fullSyncWrapRequests boot.wrapPages boot.wrapFailAt
          boot.wrapTotal st.wraps).2
      · simp [hw] at h
      · simp only [hw] at h ⊢
        by_cases hu : (fullSyncUnwrapRequests boot.unwrapPages boot.unwrapFailAt
            boot.unwrapTotal st.unwraps).2
        · simp [hu] at h
        · simp [hw, hu]
    · rw [if_neg hempty]
  · exact initialSync_crash_flag
  · intro storeU q
    exact ⟨_, rfl⟩
  · intro storeW q
    rfl

/-- Witness for C7 at concrete inputs. -/
theorem sync_gate_and_routes_witness :
    getWrapRequestsRoute false c8Store c8Query = .error .notReadyRetryLater ∧
    (∃ resp, getUnwrapRequestsRoute true [] c7UnwrapQuery = .ok resp) ∧
    getWrapRequestsRoute true c8Store c8Query = .error .typeError ∧
    (initialSync c6Boot emptyCollectorState).1.syncComplete =
      emptyCollectorState.syncComplete :=
  ⟨sync_gate_and_routes.1 c8Store c8Query,
   sync_gate_and_routes.2.2.2.2.1 [] c7UnwrapQuery,
   sync_gate_and_routes.2.2.2.2.2 c8Store c8Query,
   sync_gate_and_routes.2.2.2.1 c6Boot emptyCollectorState (by decide)⟩

/-- The snapshot loop writes one snapshot per node. -/
theorem collectLoop_length (behave : Nat → NodeBehavior) :
    ∀ (i : Nat) (nodes : List OrchNode),
      (collectLoop behave i nodes).length = nodes.length := by
  intro i nodes
  induction nodes generalizing i with
  | nil => rfl
  | cons a l ih => simp [collectLoop, ih]

/-- The `j`-th snapshot of the loop belongs to the `j`-th node and carries
the standardized result of its exchange. -/
theorem collectLoop_get (behave : Nat → NodeBehavior) :
    ∀ (nodes : List OrchNode) (i j : Nat) (h : j < nodes.length),
      (collectLoop behave i nodes).get
        ⟨j, by rw [collectLoop_length]; exact h⟩ =
      { nodeId := (nodes.get ⟨j, h⟩).nodeId
        result := queryOrchestrator (behave (i + j)) } := by
  intro nodes
  induction nodes with
  | nil => intro i j h; exact absurd h (Nat.not_lt_zero j)
  | cons a l ih =>
    intro i j h
    cases j with
    | zero => simp [collectLoop]
    | succ m =>
      have harith : i + (m + 1) = (i + 1) + m := by omega
      simp only [collectLoop, List.get_cons_succ, harith]
      exact ih (i + 1) m (Nat.lt_of_succ_lt_succ h)

/-- The source's running online counter equals the number of online
snapshots. -/
theorem foldl_online_count (l : List SnapshotRow) :
    ∀ acc : Nat,
      l.foldl (fun n s => if s.result.isOnline then n + 1 else n) acc =
      acc + (l.filter (fun s => s.result.isOnline)).length := by
  induction l with
  | nil => intro acc; simp
  | cons a t ih =>
    intro acc
    by_cases h : a.result.isOnline
    · simp [h, ih]
      omega
    · simp [h, ih]

/-- A network or protocol failure yields the standardized error snapshot:
offline, populated error text, and all three per-network queue counters at
zero. -/
theorem queryOrchestrator_failure (b : NodeBehavior) (hb : b.isFailure = true) :
    (queryOrchestrator b).isOnline = false ∧
    (queryOrchestrator b).errorMessage.isSome = true ∧
    ∀ ns ∈ (queryOrchestrator b).networkStats,
      ns.wrapsCount = 0 ∧ ns.unwrapsCount = 0 := by
  cases b with
  | success idRes stRes => simp [NodeBehavior.isFailure] at hb
  | rpcFieldError m =>
    refine ⟨rfl, rfl, ?_⟩
    intro ns hns
    simp only [queryOrchestrator, createErrorResponse, List.mem_cons,
      List.mem_singleton, List.not_mem_nil, or_false] at hns
    rcases hns with h | h | h <;> rw [h] <;> exact ⟨rfl, rfl⟩
  | requestError m =>
    refine ⟨rfl, rfl, ?_⟩
    intro ns hns
    simp only [queryOrchestrator, createErrorResponse, List.mem_cons,
      List.mem_singleton, List.not_mem_nil, or_false] at hns
    rcases hns with h | h | h <;> rw [h] <;> exact ⟨rfl, rfl⟩
  | unexpectedError m =>
    refine ⟨rfl, rfl, ?_⟩
    intro ns hns
    simp only [queryOrchestrator, createErrorResponse, List.mem_cons,
      List.mem_singleton, List.not_mem_nil, or_false] at hns
    rcases hns with h | h | h <;> rw [h] <;> exact ⟨rfl, rfl⟩

/-- C9: a poll round writes exactly one snapshot per active node in one
batch; every node whose exchange failed gets an error snapshot (offline,
error text populated, all per-network queue counters zero) without aborting
the round; and the aggregate online count equals the number of online
snapshots, so failed nodes never contribute to it. -/
theorem poll_round_isolation (nodes : List OrchNode)
    (behave : Nat → NodeBehavior) :
    (collectAllStatus nodes behave).1.length =
      (nodes.filter (fun node => node.isActive)).length ∧
    (∀ j (h : j < (collectAllStatus nodes behave).1.length),
      (behave j).isFailure = true →
      (((collectAllStatus nodes behave).1.get ⟨j, h⟩).result.isOnline = false ∧
       ((collectAllStatus nodes behave).1.get ⟨j, h⟩).result.errorMessage.isSome = true ∧
       ∀ ns ∈ ((collectAllStatus nodes behave).1.get ⟨j, h⟩).result.networkStats,
         ns.wrapsCount = 0 ∧ ns.unwrapsCount = 0)) ∧
    (collectAllStatus nodes behave).2 =
      ((collectAllStatus nodes behave).1.filter
        (fun s => s.result.isOnline)).length := by
  unfold collectAllStatus
  by_cases hempty : (nodes.filter (fun node => node.isActive)).isEmpty
  · rw [if_pos hempty]
    refine ⟨?_, fun j h => absurd h (Nat.not_lt_zero j), rfl⟩
    rw [List.isEmpty_iff.mp hempty]
    rfl
  · rw [if_neg hempty]
    refine ⟨collectLoop_length behave 0 _, ?_, ?_⟩
    · intro j h hfail
      have hlen : j < (nodes.filter (fun node => node.isActive)).length := by
        rw [← collectLoop_length behave 0]
        exact h
      have hget := collectLoop_get behave (nodes.filter (fun node => node.isActive))
        0 j hlen
      rw [Nat.zero_add] at hget
      rw [hget]
      exact queryOrchestrator_failure (behave j) hfail
    · dsimp only
      rw [foldl_online_count _ 0]
      rw [Nat.zero_add]

/-- Witness for C9 at the spec's scenario: five active nodes, node index 4
unreachable — five snapshots, the failed node's snapshot offline with error
text and zero counters, and the online count equal to the number of online
snapshots (four). -/
theorem poll_round_isolation_witness :
    (collectAllStatus c9Nodes c9Behave).1.length = 5 ∧
    ((collectAllStatus c9Nodes c9Behave).1.get ⟨4, by decide⟩).result.isOnline = false ∧
    ((collectAllStatus c9Nodes c9Behave).1.get
      ⟨4, by decide⟩).result.errorMessage.isSome = true ∧
    (collectAllStatus c9Nodes c9Behave).2 =
      ((collectAllStatus c9Nodes c9Behave).1.filter
        (fun s => s.result.isOnline)).length := by
  have h := poll_round_isolation c9Nodes c9Behave
  have hfail := h.2.1 4 (by rw [h.1]; decide) (by decide)
  exact ⟨by rw [h.1]; decide, hfail.1, hfail.2.1, h.2.2⟩

end BridgeApi
